import Mathlib

/-!
# HTTP_Server-from-scratch: request parsing and routing

A shallow embedding of `HTTPfromScratch.go` (`handleConnection` and the six
handlers it dispatches to), together with the library functions the program
calls (`bufio.Reader.ReadString`, `strings.Fields`, `strings.TrimSpace`,
`strings.SplitN`, `strconv.Atoi`, `io.ReadFull`, `filepath.Join`,
`os.ReadFile`, `os.WriteFile`).

Conventions:
* a Go `string` / `[]byte` is a list of bytes; a byte is a natural number
  (every byte on the wire is below 256, the theorems hold for all lists);
* the connection's input is the finite list of bytes the peer sends before the
  stream ends; a read past the end is the Go read error (`io.EOF`);
* the program is modelled for a 64-bit Unix build (`int` is 64 bits wide, the
  path separator is `/`);
* the file system is a state passed explicitly.
-/

namespace HTTPfromScratch

/-! ## Bytes and string literals -/

abbrev Byte := Nat

abbrev Bytes := List Byte

/-- The bytes of an ASCII string literal of the source. -/
def bytes (s : String) : Bytes := s.toList.map Char.toNat

/-- The text `fmt.Sprintf` produces for `%d` on a non-negative integer. -/
def decimal (n : Nat) : Bytes := (Nat.toDigits 10 n).map Char.toNat

/-! ## package strings -/

/-- Go `strings.HasPrefix`. -/
def HasPrefix (s pre : Bytes) : Bool := pre.isPrefixOf s

/-- Go `strings.TrimPrefix`: the prefix is removed once, when present. -/
def TrimPrefix (s pre : Bytes) : Bytes :=
  if HasPrefix s pre then s.drop pre.length else s

/-- The six ASCII white-space bytes (`\t \n \v \f \r` and the blank). -/
def asciiSpace (b : Byte) : Bool :=
  b == 9 || b == 10 || b == 11 || b == 12 || b == 13 || b == 32

/-- UTF-8 encodings, two bytes long, of the runes `unicode.IsSpace` accepts
(U+0085 and U+00A0). -/
def isSpace2 (a b : Byte) : Bool :=
  a == 0xC2 && (b == 0x85 || b == 0xA0)

/-- UTF-8 encodings, three bytes long, of the runes `unicode.IsSpace` accepts
(U+1680, U+2000 to U+200A, U+2028, U+2029, U+202F, U+205F, U+3000). -/
def isSpace3 (a b c : Byte) : Bool :=
  (a == 0xE1 && b == 0x9A && c == 0x80) ||
  (a == 0xE2 && b == 0x80 &&
    ((0x80 ≤ c && c ≤ 0x8A) || c == 0xA8 || c == 0xA9 || c == 0xAF)) ||
  (a == 0xE2 && b == 0x81 && c == 0x9F) ||
  (a == 0xE3 && b == 0x80 && c == 0x80)

/-- Width in bytes of the white-space rune at the head of `s`, or `0` when `s`
does not start with one. -/
def spaceWidth : Bytes → Nat
  | [] => 0
  | a :: rest =>
    if asciiSpace a then 1
    else match rest with
      | [] => 0
      | b :: rest2 =>
        if isSpace2 a b then 2
        else match rest2 with
          | [] => 0
          | c :: _ => if isSpace3 a b c then 3 else 0

/-- The field collected so far, when it is not empty. -/
def flushField (cur : Bytes) : List Bytes := if cur = [] then [] else [cur]

/-- The scan of `strings.Fields`: `skip` counts the bytes still to pass of a
white-space rune longer than one byte, `cur` is the field being collected. -/
def fieldsGo : Nat → Bytes → Bytes → List Bytes
  | _, cur, [] => flushField cur
  | skip + 1, cur, _ :: bs => fieldsGo skip cur bs
  | 0, cur, b :: bs =>
    match spaceWidth (b :: bs) with
    | 0 => fieldsGo 0 (cur ++ [b]) bs
    | w + 1 => flushField cur ++ fieldsGo w [] bs

/-- Go `strings.Fields`: the maximal runs of bytes between white-space runes. -/
def Fields (s : Bytes) : List Bytes := fieldsGo 0 [] s

/-- Go `strings.TrimLeftFunc(s, unicode.IsSpace)`. -/
def trimLeftSpace : Bytes → Bytes
  | [] => []
  | a :: rest =>
    if asciiSpace a then trimLeftSpace rest
    else match rest with
      | [] => a :: rest
      | b :: rest2 =>
        if isSpace2 a b then trimLeftSpace rest2
        else match rest2 with
          | [] => a :: rest
          | c :: rest3 => if isSpace3 a b c then trimLeftSpace rest3 else a :: rest

/-- The scan of `strings.TrimRightFunc(s, unicode.IsSpace)` over the reversed
string: the last byte of a rune comes first. -/
def trimRevSpace : Bytes → Bytes
  | [] => []
  | c :: rest =>
    if asciiSpace c then trimRevSpace rest
    else match rest with
      | [] => c :: rest
      | b :: rest2 =>
        if isSpace2 b c then trimRevSpace rest2
        else match rest2 with
          | [] => c :: rest
          | a :: rest3 => if isSpace3 a b c then trimRevSpace rest3 else c :: rest

/-- Go `strings.TrimSpace`: leading, then trailing white space removed. -/
def TrimSpace (s : Bytes) : Bytes :=
  (trimRevSpace (trimLeftSpace s).reverse).reverse

/-- Go `strings.SplitN(s, sep, 2)` for a separator of one byte: the text
before the first separator and the text after it, or `s` alone. -/
def SplitN2 (s : Bytes) (sep : Byte) : List Bytes :=
  if sep ∈ s then
    [s.takeWhile (fun b => b != sep), (s.dropWhile (fun b => b != sep)).drop 1]
  else [s]

/-! ## package strconv -/

/-- Width of Go's `int` on the modelled platform. -/
def intSize : Nat := 64

/-- Value of a non-empty run of decimal digits. -/
def digitsValue : Bytes → Nat → Option Nat
  | [], acc => some acc
  | d :: ds, acc =>
    if 48 ≤ d ∧ d ≤ 57 then digitsValue ds (acc * 10 + (d - 48)) else none

/-- Go `strconv.Atoi`: an optional sign, at least one decimal digit and nothing
else, and a value that fits `int`; `none` is the error result. -/
def Atoi (s : Bytes) : Option Int :=
  match s with
  | [] => none
  | c :: rest =>
    let neg := c == 45
    let digits := if c == 45 || c == 43 then rest else s
    if digits = [] then none
    else match digitsValue digits 0 with
      | none => none
      | some v =>
        if neg then (if v ≤ 2 ^ (intSize - 1) then some (-(v : Int)) else none)
        else (if v < 2 ^ (intSize - 1) then some (v : Int) else none)

/-! ## package bufio and package io -/

/-- Result of `ReadString`: the bytes read, whether an error was returned, and
what is left of the stream. -/
structure ReadResult where
  line : Bytes
  err : Bool
  rest : Bytes
deriving DecidableEq, Repr

/-- Go `(*bufio.Reader).ReadString(delim)`: reads up to and including the first
`delim`; when the stream ends first, returns what was read and an error. -/
def ReadString (delim : Byte) : Bytes → ReadResult
  | [] => ⟨[], true, []⟩
  | b :: bs =>
    if b = delim then ⟨[b], false, bs⟩
    else
      let r := ReadString delim bs
      ⟨b :: r.line, r.err, r.rest⟩

/-- Go `io.ReadFull(reader, buf)` with `len(buf) = n`: `some` of the `n` bytes
read, or `none` (an error) when the stream holds fewer than `n` bytes. -/
def ReadFull (stream : Bytes) (n : Nat) : Option Bytes :=
  if n ≤ stream.length then some (stream.take n) else none

/-! ## package path/filepath (Unix) -/

/-- The elements of a path: the runs of bytes between separators. -/
def splitSep (sep : Byte) : Bytes → List Bytes
  | [] => [[]]
  | b :: bs =>
    if b = sep then [] :: splitSep sep bs
    else match splitSep sep bs with
      | [] => [[b]]
      | c :: cs => (b :: c) :: cs

/-- One element of the path processed by `filepath.Clean`; `stack` holds the
elements kept so far, the last one first. An empty element and `.` are
dropped; `..` removes the last element kept when there is one that is not
itself `..`, is dropped at the root, and is kept otherwise. -/
def cleanStep (rooted : Bool) (stack : List Bytes) (c : Bytes) : List Bytes :=
  if c = [] ∨ c = bytes "." then stack
  else if c = bytes ".." then
    match stack with
    | [] => if rooted then stack else c :: stack
    | top :: below =>
      if top = bytes ".." then (if rooted then stack else c :: stack) else below
  else c :: stack

/-- The elements `filepath.Clean` keeps, the last one first. -/
def cleanStack (rooted : Bool) (path : Bytes) : List Bytes :=
  (splitSep 47 path).foldl (cleanStep rooted) []

/-- The path text for the kept elements: joined by `/`, after the root `/`
for a rooted path; `.` when nothing is left of an unrooted path. -/
def renderPath (rooted : Bool) (stack : List Bytes) : Bytes :=
  if rooted then 47 :: List.intercalate [47] stack.reverse
  else if stack = [] then bytes "."
  else List.intercalate [47] stack.reverse

/-- Go `filepath.Clean` on Unix. -/
def Clean (path : Bytes) : Bytes :=
  if path = [] then bytes "."
  else
    let rooted := path.head? == some 47
    renderPath rooted (cleanStack rooted path)

/-- Go `filepath.Join(a, b)`: the elements from the first non-empty one on are
joined with `/` and cleaned; the empty string when both are empty. -/
def Join (a b : Bytes) : Bytes :=
  if a ≠ [] then Clean (a ++ 47 :: b)
  else if b ≠ [] then Clean b
  else []

/-! ## package os: the file system -/

/-- State of the file system as the program sees it: what `os.ReadFile`
returns for a name (`none` is an error: no such file, a directory, no
permission), whether `os.WriteFile` to a name succeeds, and how a write to
the name fails when it does not: `none` when the file cannot be opened,
`some k` when it is opened, so created or truncated, and the write stops
with an error after `k` bytes (disk full, quota, I/O error). -/
structure FS where
  content : Bytes → Option Bytes
  writable : Bytes → Bool
  partialWrite : Bytes → Option Nat

/-- Go `os.ReadFile`. -/
def ReadFile (fs : FS) (name : Bytes) : Option Bytes := fs.content name

/-- Result of `os.WriteFile`: whether an error was returned, and the file
system the call leaves. -/
structure WriteResult where
  err : Bool
  fs : FS

/-- The file system a failed `os.WriteFile` leaves: unchanged when the file
could not be opened; otherwise the file was opened with
`O_WRONLY|O_CREATE|O_TRUNC` and holds the bytes written before the error. -/
def afterFailedWrite (fs : FS) (name data : Bytes) : FS :=
  match fs.partialWrite name with
  | none => fs
  | some k =>
    { fs with content := fun p => if p = name then some (data.take k) else fs.content p }

/-- Go `os.WriteFile`: the file is opened with `O_WRONLY|O_CREATE|O_TRUNC`,
then written. On success the named file holds exactly `data` and nothing else
changes. The call is not atomic: on an error the file may have been created,
truncated or partly written. -/
def WriteFile (fs : FS) (name data : Bytes) : WriteResult :=
  if fs.writable name then
    ⟨false, { fs with content := fun p => if p = name then some data else fs.content p }⟩
  else ⟨true, afterFailedWrite fs name data⟩

/-- A call the program makes to the file system. -/
inductive FsCall where
  | read (name : Bytes)
  | write (name data : Bytes)
deriving DecidableEq, Repr

/-! ## The program -/

/-- The handler functions of the source. -/
inductive Handler where
  | handlePostRequest
  | handleUserAgent
  | handleFileRequest
  | handleEcho
  | handleRoot
  | handleNotFound
deriving DecidableEq, Repr

/-- What one run of `handleConnection` does: the handler it called (none when
it returned before the dispatch), the bytes it wrote to the connection, the
file system it leaves, the file-system calls it made, and whether it ended in
a runtime panic. -/
structure Outcome where
  handler : Option Handler
  written : Bytes
  fs : FS
  calls : List FsCall
  panicked : Bool

/-- Go `map[string]string`, the newest assignment first; a lookup returns the
newest assignment to the key, as an assignment in Go overwrites. -/
abbrev Headers := List (Bytes × Bytes)

/-- Go `make([]byte, n)`: the length of the slice, or `none` for the runtime
panic (`makeslice: len out of range`) when `n` is negative or above the
largest size the runtime allocates. -/
def makeBytes (maxAlloc : Nat) (n : Int) : Option Nat :=
  if n < 0 ∨ (maxAlloc : Int) < n then none else some n.toNat

/-- The body of `handlePostRequest` after `filename` is computed. -/
def handlePostRequestBody (maxAlloc : Nat) (fs : FS) (reader : Bytes)
    (directory filename : Bytes) (headers : Headers) : Outcome :=
  let filePath := Join directory filename
  match headers.lookup (bytes "Content-Length") with
  | none =>
    ⟨some .handlePostRequest, bytes "HTTP/1.1 411 Length Required\r\n\r\n", fs, [], false⟩
  | some contentLengthStr =>
    match Atoi contentLengthStr with
    | none =>
      ⟨some .handlePostRequest, bytes "HTTP/1.1 400 Bad Request\r\n\r\n", fs, [], false⟩
    | some contentLength =>
      match makeBytes maxAlloc contentLength with
      | none => ⟨some .handlePostRequest, [], fs, [], true⟩
      | some n =>
        match ReadFull reader n with
        | none =>
          ⟨some .handlePostRequest, bytes "HTTP/1.1 400 Bad Request\r\n\r\n", fs, [], false⟩
        | some body =>
          if (WriteFile fs filePath body).err then
            ⟨some .handlePostRequest, bytes "HTTP/1.1 500 Internal Server Error\r\n\r\n",
              (WriteFile fs filePath body).fs, [.write filePath body], false⟩
          else
            ⟨some .handlePostRequest, bytes "HTTP/1.1 201 Created\r\n\r\n",
              (WriteFile fs filePath body).fs, [.write filePath body], false⟩

/-- Source `handlePostRequest`. -/
def handlePostRequest (maxAlloc : Nat) (fs : FS) (reader : Bytes)
    (directory urlPath : Bytes) (headers : Headers) : Outcome :=
  handlePostRequestBody maxAlloc fs reader directory
    (TrimPrefix urlPath (bytes "/files/")) headers

/-- Source `handleUserAgent`; a key that is absent reads as the empty string. -/
def handleUserAgent (fs : FS) (headers : Headers) : Outcome :=
  let userAgent := (headers.lookup (bytes "User-Agent")).getD []
  ⟨some .handleUserAgent,
    bytes "HTTP/1.1 200 OK\r\nContent-Type: text/plain\r\nContent-Length: "
      ++ decimal userAgent.length ++ bytes "\r\n\r\n" ++ userAgent,
    fs, [], false⟩

/-- The body of `handleFileRequest` after `filename` is computed. -/
def handleFileRequestBody (fs : FS) (directory filename : Bytes) : Outcome :=
  let filePath := Join directory filename
  match ReadFile fs filePath with
  | none =>
    ⟨some .handleFileRequest, bytes "HTTP/1.1 404 Not Found\r\n\r\n", fs,
      [.read filePath], false⟩
  | some fileContent =>
    ⟨some .handleFileRequest,
      bytes "HTTP/1.1 200 OK\r\nContent-Type: application/octet-stream\r\nContent-Length: "
        ++ decimal fileContent.length ++ bytes "\r\n\r\n" ++ fileContent,
      fs, [.read filePath], false⟩

/-- Source `handleFileRequest`. -/
def handleFileRequest (fs : FS) (directory urlPath : Bytes) : Outcome :=
  handleFileRequestBody fs directory (TrimPrefix urlPath (bytes "/files/"))

/-- The body of `handleEcho` after `echoString` is computed. -/
def handleEchoBody (fs : FS) (echoString : Bytes) : Outcome :=
  let responseBody := echoString
  let contentLength := responseBody.length
  ⟨some .handleEcho,
    bytes "HTTP/1.1 200 OK\r\nContent-Type: text/plain\r\nContent-Length: "
      ++ decimal contentLength ++ bytes "\r\n\r\n" ++ responseBody,
    fs, [], false⟩

/-- Source `handleEcho`. -/
def handleEcho (fs : FS) (urlPath : Bytes) : Outcome :=
  handleEchoBody fs (TrimPrefix urlPath (bytes "/echo/"))

/-- Source `handleRoot`. -/
def handleRoot (fs : FS) : Outcome :=
  ⟨some .handleRoot, bytes "HTTP/1.1 200 OK\r\n\r\n", fs, [], false⟩

/-- Source `handleNotFound`. -/
def handleNotFound (fs : FS) : Outcome :=
  ⟨some .handleNotFound, bytes "HTTP/1.1 404 Not Found\r\n\r\n", fs, [], false⟩

/-- Lines 78 to 81 of the source: a line with a `:` assigns the trimmed text
after its first `:` to the trimmed text before it; another line changes
nothing. -/
def addHeader (headers : Headers) (line : Bytes) : Headers :=
  match SplitN2 line 58 with
  | [name, value] => (TrimSpace name, TrimSpace value) :: headers
  | _ => headers

/-- The header loop of `handleConnection`. Every turn that does not leave the
loop consumes a line, so `fuel` above the length of the stream is never used
up (`readHeadersLoop_fuel`). Returns the map and the rest of the stream. -/
def readHeadersLoop : Nat → Headers → Bytes → Headers × Bytes
  | 0, headers, reader => (headers, reader)
  | fuel + 1, headers, reader =>
    let r := ReadString 10 reader
    if r.err || r.line == bytes "\r\n" then (headers, r.rest)
    else readHeadersLoop fuel (addHeader headers r.line) r.rest

/-- The header loop run to its end. -/
def readHeaders (reader : Bytes) : Headers × Bytes :=
  readHeadersLoop (reader.length + 1) [] reader

/-- The dispatch of `handleConnection`, lines 84 to 109. -/
def dispatch (maxAlloc : Nat) (fs : FS) (reader : Bytes) (directory : Bytes)
    (method urlPath : Bytes) (headers : Headers) : Outcome :=
  if method == bytes "POST" && HasPrefix urlPath (bytes "/files/") then
    handlePostRequest maxAlloc fs reader directory urlPath headers
  else if urlPath == bytes "/user-agent" then
    handleUserAgent fs headers
  else if HasPrefix urlPath (bytes "/files/") then
    handleFileRequest fs directory urlPath
  else if HasPrefix urlPath (bytes "/echo/") then
    handleEcho fs urlPath
  else if urlPath == bytes "/" then
    handleRoot fs
  else
    handleNotFound fs

/-- Source `handleConnection`: `input` is what the connection delivers,
`maxAlloc` the largest slice the runtime allocates. An index out of range
is the runtime panic. -/
def handleConnection (maxAlloc : Nat) (fs : FS) (input : Bytes)
    (directory : Bytes) : Outcome :=
  let r := ReadString 10 input
  if r.err then ⟨none, [], fs, [], false⟩
  else
    let parts := Fields r.line
    if parts.length < 3 then ⟨none, [], fs, [], false⟩
    else
      match parts[0]?, parts[1]? with
      | some method, some urlPath =>
        let hs := readHeaders r.rest
        dispatch maxAlloc fs hs.2 directory method urlPath hs.1
      | _, _ => ⟨none, [], fs, [], true⟩

/-! ## The router of the specification -/

/-- Route outcome of the specification: the closed variant of section 3. -/
inductive RouteOutcome where
  | Root
  | Echo (text : Bytes)
  | UserAgent
  | FileGet (filename : Bytes)
  | FilePost (filename : Bytes)
  | NotFound
deriving DecidableEq, Repr

/-- The six rules of the specification's router, in its order of precedence:
the condition of each rule and the outcome it gives. -/
def routerRules (m p : Bytes) : List (Bool × RouteOutcome) :=
  [ (m == bytes "POST" && HasPrefix p (bytes "/files/"),
      .FilePost (p.drop (bytes "/files/").length)),
    (p == bytes "/user-agent", .UserAgent),
    ( HasPrefix p (bytes "/files/"), .FileGet (p.drop (bytes "/files/").length)),
    ( HasPrefix p (bytes "/echo/"), .Echo (p.drop (bytes "/echo/").length)),
    (p == bytes "/", .Root),
    (true, .NotFound) ]

/-- The router of the specification: the outcome of the first rule whose
condition holds. -/
def specRoute (m p : Bytes) : RouteOutcome :=
  match (routerRules m p).find? (fun rule => rule.1) with
  | some rule => rule.2
  | none => .NotFound

/-- The handler function of the source that stands for a route outcome. -/
def RouteOutcome.handler : RouteOutcome → Handler
  | .Root => .handleRoot
  | .Echo _ => .handleEcho
  | .UserAgent => .handleUserAgent
  | .FileGet _ => .handleFileRequest
  | .FilePost _ => .handlePostRequest
  | .NotFound => .handleNotFound

/-- The handler of a route outcome run on its argument. -/
def runRoute (maxAlloc : Nat) (fs : FS) (reader : Bytes) (directory : Bytes)
    (headers : Headers) : RouteOutcome → Outcome
  | .Root => handleRoot fs
  | .Echo text => handleEchoBody fs text
  | .UserAgent => handleUserAgent fs headers
  | .FileGet filename => handleFileRequestBody fs directory filename
  | .FilePost filename =>
    handlePostRequestBody maxAlloc fs reader directory filename headers
  | .NotFound => handleNotFound fs

/-- A file system with no file, where every write succeeds. -/
def emptyFS : FS := ⟨fun _ => none, fun _ => true, fun _ => none⟩

/-- A file system whose only file is `name`, holding `data`, where every
write succeeds. -/
def fileFS (name data : Bytes) : FS :=
  ⟨fun p => if p = name then some data else none, fun _ => true, fun _ => none⟩

/-- A file system whose only file is `name`, holding `data`, where every
write opens its file and then fails after `k` bytes. -/
def fullDiskFS (name data : Bytes) (k : Nat) : FS :=
  ⟨fun p => if p = name then some data else none, fun _ => false, fun _ => some k⟩

/-! ## Header lines of a request -/

/-- A complete header line: it ends with its only line feed and is not the
bare `\r\n` that ends the headers. -/
def isHeaderLine (l : Bytes) : Bool :=
  l.getLast? == some 10 && decide (10 ∉ l.dropLast) && l != bytes "\r\n"

/-- What follows the header lines in a stream: the bare `\r\n` and the body,
or a last piece without a line feed at which the stream ends. -/
def endsHeaders (ending : Bytes) : Bool :=
  (bytes "\r\n").isPrefixOf ending || decide (10 ∉ ending)

/-- The stream after the headers: what follows the bare `\r\n`, nothing when
the stream ended first. -/
def bodyStream (ending : Bytes) : Bytes :=
  if (bytes "\r\n").isPrefixOf ending then ending.drop 2 else []

/-- Whether the text of `line` before its first `:` is `name`, white space
around it apart. -/
def lineNames (name : Bytes) (line : Bytes) : Bool :=
  decide (58 ∈ line) && TrimSpace (line.takeWhile (fun b => b != 58)) == name

/-- The text of `line` after its first `:`, white space around it removed. -/
def lineValue (line : Bytes) : Bytes :=
  TrimSpace ((line.dropWhile (fun b => b != 58)).drop 1)

/-- The value a list of header lines gives a header name: that of the last
line bearing the name, if there is one. -/
def headerValue (name : Bytes) (lines : List Bytes) : Option Bytes :=
  (lines.reverse.find? (lineNames name)).map lineValue

/-! ## Containment of paths -/

/-- The name a file-system call is made on. -/
def FsCall.name : FsCall → Bytes
  | .read name => name
  | .write name _ => name

/-- A proper path element: not empty, without a separator, neither `.` nor
`..`. -/
def isName (c : Bytes) : Prop :=
  c ≠ [] ∧ 47 ∉ c ∧ c ≠ bytes "." ∧ c ≠ bytes ".."

/-- Whether `path` lies inside `directory`, lexically: it is the cleaned
directory followed by further proper elements (`below`, the last one first). -/
def insideDir (directory path : Bytes) : Prop :=
  ∃ below : List Bytes, (∀ c ∈ below, isName c) ∧
    path = renderPath (directory.head? == some 47)
      (below ++ cleanStack (directory.head? == some 47) directory)

/-! ## Lemmas on the program -/

theorem ReadString_rest_length (d : Byte) (s : Bytes) :
    (ReadString d s).rest.length ≤ s.length ∧
      ((ReadString d s).err = false → (ReadString d s).rest.length < s.length) := by
  induction s with
  | nil => simp [ReadString]
  | cons b bs ih =>
    by_cases h : b = d
    · simp [ReadString, h]
    · simp only [ReadString, h, if_false, List.length_cons]
      exact ⟨by omega, fun he => by have := ih.2 he; omega⟩

theorem readHeadersLoop_fuel_irrelevant (f1 : Nat) :
    ∀ (f2 : Nat) (hs : Headers) (s : Bytes), s.length < f1 → s.length < f2 →
      readHeadersLoop f1 hs s = readHeadersLoop f2 hs s := by
  induction f1 with
  | zero => intro f2 hs s h1; omega
  | succ n ih =>
    intro f2 hs s h1 h2
    cases f2 with
    | zero => omega
    | succ k =>
      simp only [readHeadersLoop]
      split
      · rfl
      · rename_i hc
        have herr : (ReadString 10 s).err = false := by
          cases he : (ReadString 10 s).err
          · rfl
          · simp [he] at hc
        have hlt := (ReadString_rest_length 10 s).2 herr
        exact ih k _ _ (by omega) (by omega)

/-- Fuel above the length of the stream is never used up: the loop gives the
same result as with any other such fuel. -/
theorem readHeadersLoop_fuel (fuel : Nat) (hs : Headers) (s : Bytes)
    (h : s.length < fuel) :
    readHeadersLoop fuel hs s = readHeadersLoop (s.length + 1) hs s :=
  readHeadersLoop_fuel_irrelevant fuel (s.length + 1) hs s h (by omega)

theorem ReadString_line (body rest : Bytes) (h : 10 ∉ body) :
    ReadString 10 (body ++ 10 :: rest) = ⟨body ++ [10], false, rest⟩ := by
  induction body with
  | nil => simp [ReadString]
  | cons b bs ih =>
    have hb : b ≠ 10 := fun e => h (by simp [e])
    have hbs : 10 ∉ bs := fun e => h (by simp [e])
    simp [ReadString, hb, ih hbs]

theorem ReadString_no_newline (s : Bytes) (h : 10 ∉ s) :
    ReadString 10 s = ⟨s, true, []⟩ := by
  induction s with
  | nil => simp [ReadString]
  | cons b bs ih =>
    have hb : b ≠ 10 := fun e => h (by simp [e])
    have hbs : 10 ∉ bs := fun e => h (by simp [e])
    simp [ReadString, hb, ih hbs]

theorem isHeaderLine_split (l : Bytes) (h : isHeaderLine l = true) :
    l = l.dropLast ++ [10] ∧ 10 ∉ l.dropLast ∧ l ≠ bytes "\r\n" := by
  simp only [isHeaderLine, Bool.and_eq_true, beq_iff_eq, decide_eq_true_eq,
    bne_iff_ne, ne_eq] at h
  obtain ⟨⟨h1, h2⟩, h3⟩ := h
  exact ⟨(List.dropLast_append_getLast? 10 h1).symm, h2, h3⟩

theorem readHeadersLoop_line (fuel : Nat) (hs : Headers) (l rest : Bytes)
    (h : isHeaderLine l = true) :
    readHeadersLoop (fuel + 1) hs (l ++ rest) = readHeadersLoop fuel (addHeader hs l) rest := by
  obtain ⟨h1, h2, h3⟩ := isHeaderLine_split l h
  have hr : ReadString 10 (l ++ rest) = ⟨l, false, rest⟩ := by
    have := ReadString_line l.dropLast rest h2
    rw [h1, List.append_assoc]
    simpa using this
  simp [readHeadersLoop, hr, h3]

theorem readHeadersLoop_lines (lines : List Bytes) :
    ∀ (fuel : Nat) (hs : Headers) (ending : Bytes),
      (∀ l ∈ lines, isHeaderLine l = true) →
      readHeadersLoop (lines.length + fuel) hs (lines.flatten ++ ending) =
        readHeadersLoop fuel (lines.foldl addHeader hs) ending := by
  induction lines with
  | nil => intro fuel hs ending _; simp
  | cons l ls ih =>
    intro fuel hs ending hl
    have h1 : isHeaderLine l = true := hl l (by simp)
    have h2 : ∀ x ∈ ls, isHeaderLine x = true := fun x hx => hl x (by simp [hx])
    have e : (l :: ls).length + fuel = (ls.length + fuel) + 1 := by simp; omega
    rw [e, List.flatten_cons, List.append_assoc, readHeadersLoop_line _ _ _ _ h1, ih _ _ _ h2]
    rfl

theorem readHeadersLoop_ending (fuel : Nat) (hs : Headers) (ending : Bytes)
    (h : endsHeaders ending = true) :
    readHeadersLoop (fuel + 1) hs ending = (hs, bodyStream ending) := by
  by_cases hp : (bytes "\r\n").isPrefixOf ending = true
  · have hb : bytes "\r\n" = [13, 10] := by decide
    rw [hb] at hp
    obtain ⟨t, rfl⟩ := List.isPrefixOf_iff_prefix.mp hp
    have hr : ReadString 10 ([13, 10] ++ t) = ⟨[13, 10], false, t⟩ := by
      simp [ReadString]
    have hr2 : ReadString 10 (13 :: 10 :: t) = ⟨[13, 10], false, t⟩ := hr
    simp [readHeadersLoop, hr2, hb, bodyStream]
  · have hn : 10 ∉ ending := by
      simp only [endsHeaders, hp, Bool.false_or, decide_eq_true_eq] at h
      exact h
    simp [readHeadersLoop, ReadString_no_newline ending hn, bodyStream, hp]

/-- The header loop on a stream made of header lines and an ending: the map
holds the lines' assignments in order, and the reader is left at the body. -/
theorem readHeaders_lines (lines : List Bytes) (ending : Bytes)
    (hl : ∀ l ∈ lines, isHeaderLine l = true) (he : endsHeaders ending = true) :
    readHeaders (lines.flatten ++ ending) = (lines.foldl addHeader [], bodyStream ending) := by
  have hlen : lines.length ≤ lines.flatten.length := by
    clear he
    induction lines with
    | nil => simp
    | cons l ls ih =>
      have h1 := (isHeaderLine_split l (hl l (by simp))).1
      have h2 : 0 < l.length := by rw [h1]; simp
      have := ih (fun x hx => hl x (by simp [hx]))
      simp only [List.length_cons, List.flatten_cons, List.length_append]
      omega
  unfold readHeaders
  obtain ⟨k, hk⟩ : ∃ k, (lines.flatten ++ ending).length + 1 = lines.length + (k + 1) :=
    ⟨(lines.flatten ++ ending).length - lines.length, by
      simp only [List.length_append]; omega⟩
  rw [hk, readHeadersLoop_lines lines _ _ _ hl, readHeadersLoop_ending _ _ _ he]

theorem addHeader_lookup (name : Bytes) (hs : Headers) (l : Bytes) :
    (addHeader hs l).lookup name =
      if lineNames name l then some (lineValue l) else hs.lookup name := by
  unfold addHeader SplitN2 lineNames lineValue
  by_cases hc : 58 ∈ l
  · by_cases hn : name = TrimSpace (l.takeWhile (fun b => b != 58))
    · subst hn
      simp [hc, List.lookup]
    · have hn2 : ¬ TrimSpace (l.takeWhile (fun b => b != 58)) = name := fun e => hn e.symm
      have hb : (name == TrimSpace (l.takeWhile (fun b => b != 58))) = false := by
        simpa using hn
      simp [hc, List.lookup, hb, hn2]
  · simp [hc]

/-- The map the header loop builds from a list of lines gives a name the value
of the last line bearing it, and keeps what it held for the other names. -/
theorem foldl_addHeader_lookup (name : Bytes) (lines : List Bytes) :
    ∀ hs : Headers, (lines.foldl addHeader hs).lookup name =
      (headerValue name lines).or (hs.lookup name) := by
  induction lines with
  | nil => intro hs; simp [headerValue]
  | cons l ls ih =>
    intro hs
    rw [List.foldl_cons, ih, addHeader_lookup]
    simp only [headerValue, List.reverse_cons, List.find?_append]
    cases hf : List.find? (lineNames name) ls.reverse with
    | some x => simp
    | none =>
      by_cases hn : lineNames name l = true
      · simp [hn]
      · simp [hn]

theorem ReadString_ok (s : Bytes) (h : (ReadString 10 s).err = false) :
    ∃ body : Bytes, (ReadString 10 s).line = body ++ [10] ∧ 10 ∉ body ∧
      s = body ++ 10 :: (ReadString 10 s).rest := by
  induction s with
  | nil => simp [ReadString] at h
  | cons b bs ih =>
    by_cases hb : b = 10
    · exact ⟨[], by simp [ReadString, hb]⟩
    · simp only [ReadString, hb, if_false] at h ⊢
      obtain ⟨body, h1, h2, h3⟩ := ih h
      refine ⟨b :: body, by simp [h1], ?_, by rw [List.cons_append, ← h3]⟩
      simp only [List.mem_cons, not_or]
      exact ⟨fun e => hb e.symm, h2⟩

theorem ReadString_err (s : Bytes) (h : (ReadString 10 s).err = true) : 10 ∉ s := by
  induction s with
  | nil => simp
  | cons b bs ih =>
    by_cases hb : b = 10
    · simp [ReadString, hb] at h
    · simp only [ReadString, hb, if_false] at h
      simp only [List.mem_cons, not_or]
      exact ⟨fun e => hb e.symm, ih h⟩

/-- Every stream is a run of complete header lines followed by an ending: the
empty line and a body, or a last piece without a line feed. -/
theorem stream_decomposes (n : Nat) :
    ∀ s : Bytes, s.length ≤ n →
      ∃ (lines : List Bytes) (ending : Bytes), s = lines.flatten ++ ending ∧
        (∀ l ∈ lines, isHeaderLine l = true) ∧ endsHeaders ending = true := by
  induction n with
  | zero =>
    intro s hs
    have : s = [] := List.length_eq_zero.mp (by omega)
    subst this
    exact ⟨[], [], by simp, by simp, by decide⟩
  | succ k ih =>
    intro s hs
    cases he : (ReadString 10 s).err with
    | true =>
      exact ⟨[], s, by simp, by simp, by simp [endsHeaders, ReadString_err s he]⟩
    | false =>
      obtain ⟨body, h1, h2, h3⟩ := ReadString_ok s he
      by_cases hc : body ++ [10] = bytes "\r\n"
      · refine ⟨[], s, by simp, by simp, ?_⟩
        have hp : (bytes "\r\n").isPrefixOf s = true := by
          rw [List.isPrefixOf_iff_prefix, ← hc, h3]
          exact ⟨(ReadString 10 s).rest, by simp⟩
        simp [endsHeaders, hp]
      · have hlen : (ReadString 10 s).rest.length ≤ k := by
          have := (ReadString_rest_length 10 s).2 he
          omega
        obtain ⟨lines, ending, e1, e2, e3⟩ := ih _ hlen
        refine ⟨(body ++ [10]) :: lines, ending, ?_, ?_, e3⟩
        · rw [List.flatten_cons, List.append_assoc, ← e1, List.append_assoc]
          simpa using h3
        · intro l hl
          rcases List.mem_cons.mp hl with rfl | hl
          · simp [isHeaderLine, h2, hc]
          · exact e2 l hl

/-! ## Lemmas on the dispatch -/

theorem handleConnection_of_fields (maxAlloc : Nat) (fs : FS) (input directory : Bytes)
    (m p v : Bytes) (more : List Bytes)
    (hline : (ReadString 10 input).err = false)
    (hparts : Fields (ReadString 10 input).line = m :: p :: v :: more) :
    handleConnection maxAlloc fs input directory =
      dispatch maxAlloc fs (readHeaders (ReadString 10 input).rest).2 directory m p
        (readHeaders (ReadString 10 input).rest).1 := by
  simp [handleConnection, hline, hparts]

theorem handlePostRequestBody_handler (maxAlloc : Nat) (fs : FS) (reader : Bytes)
    (directory filename : Bytes) (headers : Headers) :
    (handlePostRequestBody maxAlloc fs reader directory filename headers).handler =
      some .handlePostRequest := by
  simp only [handlePostRequestBody]
  repeat' split
  all_goals rfl

theorem handleFileRequestBody_handler (fs : FS) (directory filename : Bytes) :
    (handleFileRequestBody fs directory filename).handler = some .handleFileRequest := by
  simp only [handleFileRequestBody]
  split <;> rfl

theorem runRoute_handler (maxAlloc : Nat) (fs : FS) (reader : Bytes) (directory : Bytes)
    (headers : Headers) (r : RouteOutcome) :
    (runRoute maxAlloc fs reader directory headers r).handler = some r.handler := by
  cases r <;>
    simp [runRoute, RouteOutcome.handler, handlePostRequestBody_handler,
      handleFileRequestBody_handler, handleRoot, handleEchoBody, handleUserAgent,
      handleNotFound]

theorem dispatch_eq_runRoute (maxAlloc : Nat) (fs : FS) (reader : Bytes)
    (directory m p : Bytes) (headers : Headers) :
    dispatch maxAlloc fs reader directory m p headers =
      runRoute maxAlloc fs reader directory headers (specRoute m p) := by
  cases hm : (m == bytes "POST") <;>
  cases hf : HasPrefix p (bytes "/files/") <;>
  cases hu : (p == bytes "/user-agent") <;>
  cases he : HasPrefix p (bytes "/echo/") <;>
  cases hr : (p == bytes "/") <;>
  simp only [dispatch, specRoute, routerRules, runRoute, handlePostRequest,
    handleFileRequest, handleEcho, TrimPrefix, hm, hf, hu, he, hr, List.find?,
    Bool.and_true, Bool.and_false, Bool.false_and, Bool.true_and, Bool.false_eq_true,
    if_true, if_false]

theorem bytes_echo : bytes "/echo/" = [47, 101, 99, 104, 111, 47] := by decide

theorem bytes_files : bytes "/files/" = [47, 102, 105, 108, 101, 115, 47] := by decide

theorem bytes_userAgent :
    bytes "/user-agent" = [47, 117, 115, 101, 114, 45, 97, 103, 101, 110, 116] := by decide

theorem bytes_root : bytes "/" = [47] := by decide

theorem dispatch_echo (maxAlloc : Nat) (fs : FS) (reader directory m t : Bytes)
    (headers : Headers) :
    dispatch maxAlloc fs reader directory m (bytes "/echo/" ++ t) headers =
      handleEchoBody fs t := by
  simp [dispatch, handleEcho, TrimPrefix, HasPrefix, bytes_echo, bytes_files,
    bytes_userAgent, List.isPrefixOf]

theorem dispatch_userAgent (maxAlloc : Nat) (fs : FS) (reader directory m : Bytes)
    (headers : Headers) :
    dispatch maxAlloc fs reader directory m (bytes "/user-agent") headers =
      handleUserAgent fs headers := by
  have h : HasPrefix (bytes "/user-agent") (bytes "/files/") = false := by decide
  simp [dispatch, h]

theorem dispatch_post_files (maxAlloc : Nat) (fs : FS) (reader directory f : Bytes)
    (headers : Headers) :
    dispatch maxAlloc fs reader directory (bytes "POST") (bytes "/files/" ++ f) headers =
      handlePostRequestBody maxAlloc fs reader directory f headers := by
  simp [dispatch, handlePostRequest, TrimPrefix, HasPrefix, bytes_files, List.isPrefixOf]

theorem dispatch_other_files (maxAlloc : Nat) (fs : FS) (reader directory m f : Bytes)
    (headers : Headers) (hm : m ≠ bytes "POST") :
    dispatch maxAlloc fs reader directory m (bytes "/files/" ++ f) headers =
      handleFileRequestBody fs directory f := by
  simp [dispatch, handleFileRequest, TrimPrefix, HasPrefix, bytes_files, bytes_userAgent,
    List.isPrefixOf, hm]

theorem ReadFull_append (body extra : Bytes) :
    ReadFull (body ++ extra) body.length = some body := by
  simp [ReadFull]

theorem makeBytes_ofNat (maxAlloc n : Nat) :
    makeBytes maxAlloc (n : Int) = if maxAlloc < n then none else some n := by
  unfold makeBytes
  by_cases h : maxAlloc < n
  · have : (maxAlloc : Int) < (n : Int) := by exact_mod_cast h
    simp [h, this]
  · have h1 : ¬ (maxAlloc : Int) < (n : Int) := by exact_mod_cast h
    have h2 : ¬ (n : Int) < 0 := by omega
    simp [h, h1, h2]

/-- The upload handler on a request whose `Content-Length` is the length of
the body that follows the headers. -/
theorem handlePostRequestBody_framed (maxAlloc : Nat) (fs : FS)
    (directory f cl body extra : Bytes) (headers : Headers)
    (hcl : headers.lookup (bytes "Content-Length") = some cl)
    (hlen : Atoi cl = some (body.length : Int)) :
    handlePostRequestBody maxAlloc fs (body ++ extra) directory f headers =
      if maxAlloc < body.length then ⟨some .handlePostRequest, [], fs, [], true⟩
      else if fs.writable (Join directory f) then
        ⟨some .handlePostRequest, bytes "HTTP/1.1 201 Created\r\n\r\n",
          { fs with content := fun p =>
              if p = Join directory f then some body else fs.content p },
          [.write (Join directory f) body], false⟩
      else
        ⟨some .handlePostRequest, bytes "HTTP/1.1 500 Internal Server Error\r\n\r\n",
          afterFailedWrite fs (Join directory f) body, [.write (Join directory f) body],
          false⟩ := by
  simp only [handlePostRequestBody, hcl, hlen, makeBytes_ofNat]
  by_cases h : maxAlloc < body.length
  · simp [h]
  · by_cases hw : fs.writable (Join directory f) = true
    · simp [h, ReadFull_append, WriteFile, hw]
    · simp [h, ReadFull_append, WriteFile, hw]

theorem runRoute_panicked (maxAlloc : Nat) (fs : FS) (reader : Bytes) (directory : Bytes)
    (headers : Headers) (r : RouteOutcome)
    (h : (runRoute maxAlloc fs reader directory headers r).panicked = true) :
    r.handler = .handlePostRequest := by
  cases r with
  | FilePost f => rfl
  | FileGet f =>
    simp only [runRoute, handleFileRequestBody] at h
    split at h <;> simp at h
  | Root => simp [runRoute, handleRoot] at h
  | Echo t => simp [runRoute, handleEchoBody] at h
  | UserAgent => simp [runRoute, handleUserAgent] at h
  | NotFound => simp [runRoute, handleNotFound] at h

/-- The indexing `parts[0]`, `parts[1]` never panics: a run that ends in a
panic has reached the upload handler. -/
theorem handleConnection_panicked_in_upload (maxAlloc : Nat) (fs : FS)
    (input directory : Bytes)
    (h : (handleConnection maxAlloc fs input directory).panicked = true) :
    (handleConnection maxAlloc fs input directory).handler = some .handlePostRequest := by
  unfold handleConnection at h ⊢
  by_cases he : (ReadString 10 input).err = true
  · simp [he] at h
  · by_cases hlen : (Fields (ReadString 10 input).line).length < 3
    · simp [he, hlen] at h
    · match hp : Fields (ReadString 10 input).line with
      | [] => simp [hp] at hlen
      | [_] => simp [hp] at hlen
      | m :: p :: rest =>
        have hlen2 : ¬ (m :: p :: rest).length < 3 := by rw [← hp]; exact hlen
        simp only [hp, he, hlen2, if_false, List.getElem?_cons_zero,
          List.getElem?_cons_succ, Bool.false_eq_true] at h ⊢
        rw [dispatch_eq_runRoute] at h ⊢
        rw [runRoute_handler, runRoute_panicked _ _ _ _ _ _ h]

theorem ReadString_line_append (d : Byte) (s : Bytes) (h : (ReadString d s).err = false)
    (x : Bytes) :
    ReadString d ((ReadString d s).line ++ x) = ⟨(ReadString d s).line, false, x⟩ := by
  induction s with
  | nil => simp [ReadString] at h
  | cons b bs ih =>
    by_cases hb : b = d
    · simp [ReadString, hb]
    · simp only [ReadString, hb, if_false] at h ⊢
      simp [ReadString, hb, ih h]

/-! ## Lemmas on paths -/

theorem splitSep_ne_nil (sep : Byte) (s : Bytes) : splitSep sep s ≠ [] := by
  cases s with
  | nil => simp [splitSep]
  | cons b bs =>
    unfold splitSep
    by_cases h : b = sep
    · simp [h]
    · simp only [h, if_false]
      split <;> simp

theorem splitSep_append (sep : Byte) (a b : Bytes) :
    splitSep sep (a ++ sep :: b) = splitSep sep a ++ splitSep sep b := by
  induction a with
  | nil => simp [splitSep]
  | cons x xs ih =>
    by_cases h : x = sep
    · simp [splitSep, h, ih]
    · have ih2 : splitSep sep (xs.append (sep :: b)) = splitSep sep xs ++ splitSep sep b := ih
      simp only [List.cons_append, splitSep, h, if_false]
      rw [ih2]
      cases hs : splitSep sep xs with
      | nil => exact absurd hs (splitSep_ne_nil sep xs)
      | cons c cs => simp

theorem splitSep_no_sep (sep : Byte) (s : Bytes) : ∀ c ∈ splitSep sep s, sep ∉ c := by
  induction s with
  | nil => simp [splitSep]
  | cons b bs ih =>
    unfold splitSep
    by_cases h : b = sep
    · simp only [h, if_true, List.mem_cons]
      rintro c (rfl | hc)
      · simp
      · exact ih c hc
    · simp only [h, if_false]
      cases hs : splitSep sep bs with
      | nil => exact absurd hs (splitSep_ne_nil sep bs)
      | cons c cs =>
        rw [hs] at ih
        simp only [List.mem_cons]
        rintro x (rfl | hx)
        · have := ih c (by simp)
          simp only [List.mem_cons, not_or]
          exact ⟨fun e => h e.symm, this⟩
        · exact ih x (by simp [hx])

/-- Elements without `..` are only ever added to what `filepath.Clean` has
kept so far. -/
theorem foldl_cleanStep_pushes (rooted : Bool) (comps : List Bytes) :
    ∀ stack : List Bytes, bytes ".." ∉ comps → (∀ c ∈ comps, 47 ∉ c) →
      ∃ below : List Bytes, (∀ c ∈ below, isName c) ∧
        comps.foldl (cleanStep rooted) stack = below ++ stack := by
  induction comps with
  | nil => intro stack _ _; exact ⟨[], by simp, by simp⟩
  | cons c cs ih =>
    intro stack hd hs
    have hc : c ≠ bytes ".." := fun e => hd (by simp [e])
    have hcs : bytes ".." ∉ cs := fun e => hd (by simp [e])
    have hsc : 47 ∉ c := hs c (by simp)
    have hss : ∀ x ∈ cs, 47 ∉ x := fun x hx => hs x (by simp [hx])
    by_cases h0 : c = [] ∨ c = bytes "."
    · have : cleanStep rooted stack c = stack := by simp [cleanStep, h0]
      rw [List.foldl_cons, this]
      exact ih stack hcs hss
    · have : cleanStep rooted stack c = c :: stack := by simp [cleanStep, h0, hc]
      rw [List.foldl_cons, this]
      obtain ⟨below, hb, he⟩ := ih (c :: stack) hcs hss
      refine ⟨below ++ [c], ?_, by simp [he]⟩
      intro x hx
      rcases List.mem_append.mp hx with hx | hx
      · exact hb x hx
      · have hxc : x = c := by simpa using hx
        subst hxc
        exact ⟨fun e => h0 (Or.inl e), hsc, fun e => h0 (Or.inr e), hc⟩

/-- The path `filepath.Join` gives for a file name without a `..` element
lies inside the directory. -/
theorem Join_inside (directory f : Bytes) (hdir : directory ≠ [])
    (hdots : bytes ".." ∉ splitSep 47 f) : insideDir directory (Join directory f) := by
  obtain ⟨d, ds, rfl⟩ := List.exists_cons_of_ne_nil hdir
  obtain ⟨below, hb, he⟩ := foldl_cleanStep_pushes ((d :: ds).head? == some 47)
    (splitSep 47 f) (cleanStack ((d :: ds).head? == some 47) (d :: ds)) hdots
    (splitSep_no_sep 47 f)
  refine ⟨below, hb, ?_⟩
  rw [← he]
  have hsplit : splitSep 47 (d :: ds ++ 47 :: f) = splitSep 47 (d :: ds) ++ splitSep 47 f :=
    splitSep_append 47 (d :: ds) f
  have hJ : Join (d :: ds) f = renderPath ((d :: ds).head? == some 47)
      (cleanStack ((d :: ds).head? == some 47) (d :: ds ++ 47 :: f)) := by
    simp [Join, Clean]
  rw [hJ]
  unfold cleanStack
  rw [hsplit, List.foldl_append]

theorem handlePostRequestBody_calls (maxAlloc : Nat) (fs : FS) (reader : Bytes)
    (directory f : Bytes) (headers : Headers) :
    ∀ c ∈ (handlePostRequestBody maxAlloc fs reader directory f headers).calls,
      c.name = Join directory f := by
  simp only [handlePostRequestBody]
  repeat' split
  all_goals simp [FsCall.name]

theorem handleFileRequestBody_calls (fs : FS) (directory f : Bytes) :
    ∀ c ∈ (handleFileRequestBody fs directory f).calls, c.name = Join directory f := by
  simp only [handleFileRequestBody]
  split <;> simp [FsCall.name]

theorem dispatch_notFound (maxAlloc : Nat) (fs : FS) (reader directory m p : Bytes)
    (headers : Headers)
    (hua : p ≠ bytes "/user-agent") (hroot : p ≠ bytes "/")
    (hfiles : HasPrefix p (bytes "/files/") = false)
    (hecho : HasPrefix p (bytes "/echo/") = false) :
    dispatch maxAlloc fs reader directory m p headers = handleNotFound fs := by
  simp [dispatch, hua, hroot, hfiles, hecho]

/-- A POST on `/files/` whose header lines give `Content-Length` the length of
the body `B` that follows the empty line, on any file system. -/
theorem handleConnection_post_framed (maxAlloc : Nat) (fs : FS)
    (post directory F B cl extra v : Bytes) (more lines : List Bytes)
    (hline : (ReadString 10 post).err = false)
    (hparts : Fields (ReadString 10 post).line =
      bytes "POST" :: (bytes "/files/" ++ F) :: v :: more)
    (hrest : (ReadString 10 post).rest = lines.flatten ++ (bytes "\r\n" ++ (B ++ extra)))
    (hl : ∀ l ∈ lines, isHeaderLine l = true)
    (hcl : headerValue (bytes "Content-Length") lines = some cl)
    (hlen : Atoi cl = some (B.length : Int)) :
    handleConnection maxAlloc fs post directory =
      if maxAlloc < B.length then ⟨some .handlePostRequest, [], fs, [], true⟩
      else if fs.writable (Join directory F) then
        ⟨some .handlePostRequest, bytes "HTTP/1.1 201 Created\r\n\r\n",
          { fs with content := fun p =>
              if p = Join directory F then some B else fs.content p },
          [.write (Join directory F) B], false⟩
      else
        ⟨some .handlePostRequest, bytes "HTTP/1.1 500 Internal Server Error\r\n\r\n",
          afterFailedWrite fs (Join directory F) B, [.write (Join directory F) B],
          false⟩ := by
  have hb : bytes "\r\n" = [13, 10] := by decide
  have he : endsHeaders (bytes "\r\n" ++ (B ++ extra)) = true := by
    simp [endsHeaders, hb, List.isPrefixOf]
  have hbody : bodyStream (bytes "\r\n" ++ (B ++ extra)) = B ++ extra := by
    simp [bodyStream, hb, List.isPrefixOf]
  have hlook : (lines.foldl addHeader []).lookup (bytes "Content-Length") = some cl := by
    rw [foldl_addHeader_lookup, hcl]; rfl
  rw [handleConnection_of_fields maxAlloc fs post directory _ _ v more hline hparts,
    dispatch_post_files, hrest, readHeaders_lines lines _ hl he, hbody,
    handlePostRequestBody_framed maxAlloc fs directory F cl B extra _ hlook hlen]

theorem bytes_created_ne_nil : ([] : Bytes) ≠ bytes "HTTP/1.1 201 Created\r\n\r\n" := by
  decide

theorem bytes_error_ne_created :
    bytes "HTTP/1.1 500 Internal Server Error\r\n\r\n" ≠
      bytes "HTTP/1.1 201 Created\r\n\r\n" := by
  decide

theorem bytes_badRequest_ne_created :
    bytes "HTTP/1.1 400 Bad Request\r\n\r\n" ≠ bytes "HTTP/1.1 201 Created\r\n\r\n" := by
  decide

theorem bytes_lengthRequired_ne_created :
    bytes "HTTP/1.1 411 Length Required\r\n\r\n" ≠
      bytes "HTTP/1.1 201 Created\r\n\r\n" := by
  decide

/-- What an upload answered `201 Created` has done: the declared length is
not negative, that many bytes were in the stream, and the file holds exactly
those. -/
theorem handlePostRequestBody_created (maxAlloc : Nat) (fs : FS) (reader : Bytes)
    (directory f cl : Bytes) (N : Int) (headers : Headers)
    (hcl : headers.lookup (bytes "Content-Length") = some cl)
    (hN : Atoi cl = some N)
    (h : (handlePostRequestBody maxAlloc fs reader directory f headers).written =
      bytes "HTTP/1.1 201 Created\r\n\r\n") :
    0 ≤ N ∧ N.toNat ≤ reader.length ∧ fs.writable (Join directory f) = true ∧
      handlePostRequestBody maxAlloc fs reader directory f headers =
        ⟨some .handlePostRequest, bytes "HTTP/1.1 201 Created\r\n\r\n",
          { fs with content := fun p =>
              if p = Join directory f then some (reader.take N.toNat) else fs.content p },
          [.write (Join directory f) (reader.take N.toNat)], false⟩ := by
  simp only [handlePostRequestBody, hcl, hN] at h
  by_cases hm : N < 0 ∨ (maxAlloc : Int) < N
  · simp only [makeBytes, hm, if_true] at h
    exact absurd h bytes_created_ne_nil
  · simp only [makeBytes, hm, if_false] at h
    have h0 : 0 ≤ N := by omega
    by_cases hr : N.toNat ≤ reader.length
    · simp only [ReadFull, hr, if_true] at h
      by_cases hw : fs.writable (Join directory f) = true
      · refine ⟨h0, hr, hw, ?_⟩
        simp only [handlePostRequestBody, hcl, hN, makeBytes, hm, if_false, ReadFull, hr,
          if_true, WriteFile, hw, Bool.false_eq_true]
      · simp only [WriteFile, hw, if_false, if_true, Bool.false_eq_true] at h
        exact absurd h bytes_error_ne_created
    · simp only [ReadFull, hr, if_false] at h
      exact absurd h bytes_badRequest_ne_created

theorem headerValue_none (name : Bytes) (lines : List Bytes)
    (h : ∀ l ∈ lines, lineNames name l = false) : headerValue name lines = none := by
  have : lines.reverse.find? (lineNames name) = none := by
    rw [List.find?_eq_none]
    intro l hl
    simp [h l (List.mem_reverse.mp hl)]
  simp [headerValue, this]

/-- An upload whose declared length is positive, within what the runtime
allocates, and larger than what is left of the stream is answered
`400 Bad Request`; nothing is written to the file system. -/
theorem handlePostRequestBody_short_body (maxAlloc : Nat) (fs : FS) (reader : Bytes)
    (directory f cl : Bytes) (N : Int) (headers : Headers)
    (hcl : headers.lookup (bytes "Content-Length") = some cl)
    (hN : Atoi cl = some N) (hmax : N ≤ (maxAlloc : Int))
    (hshort : (reader.length : Int) < N) :
    handlePostRequestBody maxAlloc fs reader directory f headers =
      ⟨some .handlePostRequest, bytes "HTTP/1.1 400 Bad Request\r\n\r\n", fs, [], false⟩ := by
  have hm : ¬ (N < 0 ∨ (maxAlloc : Int) < N) := by omega
  have hr : ¬ N.toNat ≤ reader.length := by omega
  simp only [handlePostRequestBody, hcl, hN, makeBytes, hm, if_false, ReadFull, hr]

theorem handleFileRequestBody_fs (fs : FS) (directory f : Bytes) :
    (handleFileRequestBody fs directory f).fs = fs := by
  simp only [handleFileRequestBody]
  split <;> rfl

/-- The upload handler leaves the file system as it was, or has called
`os.WriteFile` once on `filepath.Join(directory, f)` and has changed that
file only: the answer is `201 Created` and the file holds the data, or the
answer is `500 Internal Server Error` and the file holds a first part of it. -/
theorem handlePostRequestBody_frame (maxAlloc : Nat) (fs : FS) (reader : Bytes)
    (directory f : Bytes) (headers : Headers) :
    (handlePostRequestBody maxAlloc fs reader directory f headers).fs = fs ∨
      ∃ data kept : Bytes,
        (handlePostRequestBody maxAlloc fs reader directory f headers).calls =
            [.write (Join directory f) data] ∧
        (((handlePostRequestBody maxAlloc fs reader directory f headers).written =
              bytes "HTTP/1.1 201 Created\r\n\r\n" ∧ kept = data) ∨
          ((handlePostRequestBody maxAlloc fs reader directory f headers).written =
              bytes "HTTP/1.1 500 Internal Server Error\r\n\r\n" ∧ kept <+: data)) ∧
        (handlePostRequestBody maxAlloc fs reader directory f headers).fs =
          { fs with content := fun q =>
              if q = Join directory f then some kept else fs.content q } := by
  simp only [handlePostRequestBody]
  split
  · exact Or.inl rfl
  · split
    · exact Or.inl rfl
    · split
      · exact Or.inl rfl
      · split
        · exact Or.inl rfl
        · rename_i data _
          by_cases hw : fs.writable (Join directory f) = true
          · right
            refine ⟨data, data, ?_⟩
            simp [WriteFile, hw]
          · cases hp : fs.partialWrite (Join directory f) with
            | none =>
              left
              simp [WriteFile, hw, afterFailedWrite, hp]
            | some k =>
              right
              refine ⟨data, data.take k, ?_⟩
              simp [WriteFile, hw, afterFailedWrite, hp, List.take_prefix]

/-- The dispatch leaves the file system as it was, unless the method is
exactly `POST`, the path starts with `/files/` and `os.WriteFile` was called,
with the answer `201 Created` or `500 Internal Server Error`; then it has
changed one file only. -/
theorem dispatch_frame (maxAlloc : Nat) (fs : FS) (reader directory m p : Bytes)
    (headers : Headers) :
    (dispatch maxAlloc fs reader directory m p headers).fs = fs ∨
      (m = bytes "POST" ∧ HasPrefix p (bytes "/files/") = true ∧
        ∃ data kept : Bytes,
          (dispatch maxAlloc fs reader directory m p headers).calls =
              [.write (Join directory (TrimPrefix p (bytes "/files/"))) data] ∧
          (((dispatch maxAlloc fs reader directory m p headers).written =
                bytes "HTTP/1.1 201 Created\r\n\r\n" ∧ kept = data) ∨
            ((dispatch maxAlloc fs reader directory m p headers).written =
                bytes "HTTP/1.1 500 Internal Server Error\r\n\r\n" ∧ kept <+: data)) ∧
          (dispatch maxAlloc fs reader directory m p headers).fs =
            { fs with content := fun q =>
                if q = Join directory (TrimPrefix p (bytes "/files/")) then some kept
                else fs.content q }) := by
  cases hm : (m == bytes "POST") <;> cases hf : HasPrefix p (bytes "/files/")
  case true.true =>
    have hd : dispatch maxAlloc fs reader directory m p headers =
        handlePostRequestBody maxAlloc fs reader directory
          (TrimPrefix p (bytes "/files/")) headers := by
      simp only [dispatch, hm, hf, Bool.and_true, if_true, handlePostRequest]
    rw [hd]
    rcases handlePostRequestBody_frame maxAlloc fs reader directory
      (TrimPrefix p (bytes "/files/")) headers with h | h
    · exact Or.inl h
    · exact Or.inr ⟨by simpa using hm, rfl, h⟩
  all_goals
    left
    simp only [dispatch, hm, hf, Bool.and_true, Bool.and_false, Bool.false_and,
      Bool.false_eq_true, if_false, if_true]
    repeat' split
    all_goals first
      | rfl
      | exact handleFileRequestBody_fs _ _ _

theorem Join_empty_name (directory : Bytes) (hdir : directory ≠ []) :
    Join directory [] = Clean directory := by
  obtain ⟨d, ds, rfl⟩ := List.exists_cons_of_ne_nil hdir
  have hsplit : splitSep 47 (d :: ds ++ 47 :: []) = splitSep 47 (d :: ds) ++ splitSep 47 [] :=
    splitSep_append 47 (d :: ds) []
  have hJ : Join (d :: ds) [] = renderPath ((d :: ds).head? == some 47)
      (cleanStack ((d :: ds).head? == some 47) (d :: ds ++ 47 :: [])) := by
    simp [Join, Clean]
  have hC : Clean (d :: ds) = renderPath ((d :: ds).head? == some 47)
      (cleanStack ((d :: ds).head? == some 47) (d :: ds)) := by
    simp [Clean]
  rw [hJ, hC]
  unfold cleanStack
  rw [hsplit, List.foldl_append]
  simp [splitSep, cleanStep]

/-! ## Claims -/

/-- C1: on a request line that is read whole and splits into at least three
fields `m`, `p`, version, `handleConnection` calls exactly one handler: the
one of the first rule of the specification's router that matches `m` and `p`
(POST on `/files/` before `/user-agent`, before `/files/`, before `/echo/`,
before `/`, before not-found), run on `p` minus its prefix. -/
theorem handleConnection_dispatch_first_match (maxAlloc : Nat) (fs : FS)
    (input directory : Bytes) (m p v : Bytes) (more : List Bytes)
    (hline : (ReadString 10 input).err = false)
    (hparts : Fields (ReadString 10 input).line = m :: p :: v :: more) :
    handleConnection maxAlloc fs input directory =
        runRoute maxAlloc fs (readHeaders (ReadString 10 input).rest).2 directory
          (readHeaders (ReadString 10 input).rest).1 (specRoute m p)
      ∧ (handleConnection maxAlloc fs input directory).handler =
          some (specRoute m p).handler := by
  have h := handleConnection_of_fields maxAlloc fs input directory m p v more hline hparts
  rw [h, dispatch_eq_runRoute]
  exact ⟨rfl, runRoute_handler _ _ _ _ _ _⟩

/-- A POST on `/files/a.txt` reaches the upload handler. -/
theorem handleConnection_dispatch_first_match_witness :
    (handleConnection 4096 emptyFS
        (bytes "POST /files/a.txt HTTP/1.1\r\nContent-Length: 2\r\n\r\nhi") (bytes "/srv")).handler
      = some .handlePostRequest :=
  (handleConnection_dispatch_first_match 4096 emptyFS
    (bytes "POST /files/a.txt HTTP/1.1\r\nContent-Length: 2\r\n\r\nhi") (bytes "/srv")
    (bytes "POST") (bytes "/files/a.txt") (bytes "HTTP/1.1") []
    (by decide) (by decide)).2

/-- C2: a request whose path is `/echo/` followed by `t`, with any method and
any headers, is answered with exactly the status line `200 OK`, the headers
`Content-Type: text/plain` and `Content-Length:` the decimal byte length of
`t`, and the body `t`, the path with its leading `/echo/` removed once; the
file system is not touched. -/
theorem handleConnection_echo (maxAlloc : Nat) (fs : FS) (input directory : Bytes)
    (m t v : Bytes) (more : List Bytes)
    (hline : (ReadString 10 input).err = false)
    (hparts : Fields (ReadString 10 input).line = m :: (bytes "/echo/" ++ t) :: v :: more) :
    handleConnection maxAlloc fs input directory =
      ⟨some .handleEcho,
        bytes "HTTP/1.1 200 OK\r\nContent-Type: text/plain\r\nContent-Length: "
          ++ decimal t.length ++ bytes "\r\n\r\n" ++ t,
        fs, [], false⟩ := by
  rw [handleConnection_of_fields maxAlloc fs input directory m _ v more hline hparts,
    dispatch_echo]
  rfl

/-- Scenario A of the specification: `GET /echo/hello`. -/
theorem handleConnection_echo_witness :
    (handleConnection 4096 emptyFS (bytes "GET /echo/hello HTTP/1.1\r\n\r\n")
        (bytes ".")).written =
      bytes "HTTP/1.1 200 OK\r\nContent-Type: text/plain\r\nContent-Length: 5\r\n\r\nhello" :=
  (congrArg Outcome.written
    (handleConnection_echo 4096 emptyFS (bytes "GET /echo/hello HTTP/1.1\r\n\r\n")
      (bytes ".") (bytes "GET") (bytes "hello") (bytes "HTTP/1.1") []
      (by decide) (by decide))).trans (by decide)

/-- C3: a request with path `/user-agent`, whose header lines are `lines`, is
answered `200 OK` with `Content-Type: text/plain`, a `Content-Length` equal to
the byte length of the body, and as body the value, white space around it
removed, of the last header line named `User-Agent`; the body is empty (and
the length `0`) when no line bears that name. Nothing else happens: no
file-system call, no panic. -/
theorem handleConnection_userAgent (maxAlloc : Nat) (fs : FS) (input directory : Bytes)
    (m v : Bytes) (more lines : List Bytes) (ending : Bytes)
    (hline : (ReadString 10 input).err = false)
    (hparts : Fields (ReadString 10 input).line = m :: bytes "/user-agent" :: v :: more)
    (hrest : (ReadString 10 input).rest = lines.flatten ++ ending)
    (hl : ∀ l ∈ lines, isHeaderLine l = true) (he : endsHeaders ending = true) :
    handleConnection maxAlloc fs input directory =
      ⟨some .handleUserAgent,
        bytes "HTTP/1.1 200 OK\r\nContent-Type: text/plain\r\nContent-Length: "
          ++ decimal ((headerValue (bytes "User-Agent") lines).getD []).length
          ++ bytes "\r\n\r\n" ++ (headerValue (bytes "User-Agent") lines).getD [],
        fs, [], false⟩ := by
  rw [handleConnection_of_fields maxAlloc fs input directory m _ v more hline hparts,
    dispatch_userAgent, hrest, readHeaders_lines lines ending hl he]
  simp [handleUserAgent, foldl_addHeader_lookup]

/-- Scenario B of the specification: `GET /user-agent` with the header
`User-Agent: test-client/1.0`, after a `Host` header whose value holds a `:`. -/
theorem handleConnection_userAgent_witness :
    (handleConnection 4096 emptyFS
        (bytes "GET /user-agent HTTP/1.1\r\nHost: localhost:4221\r\nUser-Agent: test-client/1.0\r\n\r\n")
        (bytes ".")).written =
      bytes "HTTP/1.1 200 OK\r\nContent-Type: text/plain\r\nContent-Length: 15\r\n\r\ntest-client/1.0" :=
  (congrArg Outcome.written
    (handleConnection_userAgent 4096 emptyFS
      (bytes "GET /user-agent HTTP/1.1\r\nHost: localhost:4221\r\nUser-Agent: test-client/1.0\r\n\r\n")
      (bytes ".") (bytes "GET") (bytes "HTTP/1.1") []
      [bytes "Host: localhost:4221\r\n", bytes "User-Agent: test-client/1.0\r\n"]
      (bytes "\r\n") (by decide) (by decide) (by decide) (by decide) (by decide))).trans
    (by decide)

/-- C4: round trip. When a `POST /files/F` request whose header lines give
`Content-Length` the length of `B`, followed by the body `B`, is answered
`201 Created`, a following `GET /files/F` on the file system the upload left
is answered `200 OK` with `Content-Length` the length of `B` and exactly `B`
as body. -/
theorem post_then_get_roundtrip (maxAlloc : Nat) (fs : FS)
    (post get directory F B cl extra v1 v2 : Bytes) (more1 more2 lines : List Bytes)
    (hline1 : (ReadString 10 post).err = false)
    (hparts1 : Fields (ReadString 10 post).line =
      bytes "POST" :: (bytes "/files/" ++ F) :: v1 :: more1)
    (hrest1 : (ReadString 10 post).rest = lines.flatten ++ (bytes "\r\n" ++ (B ++ extra)))
    (hl : ∀ l ∈ lines, isHeaderLine l = true)
    (hcl : headerValue (bytes "Content-Length") lines = some cl)
    (hlen : Atoi cl = some (B.length : Int))
    (hcreated : (handleConnection maxAlloc fs post directory).written =
      bytes "HTTP/1.1 201 Created\r\n\r\n")
    (hline2 : (ReadString 10 get).err = false)
    (hparts2 : Fields (ReadString 10 get).line =
      bytes "GET" :: (bytes "/files/" ++ F) :: v2 :: more2) :
    (handleConnection maxAlloc (handleConnection maxAlloc fs post directory).fs get
        directory).written =
      bytes "HTTP/1.1 200 OK\r\nContent-Type: application/octet-stream\r\nContent-Length: "
        ++ decimal B.length ++ bytes "\r\n\r\n" ++ B := by
  have he : endsHeaders (bytes "\r\n" ++ (B ++ extra)) = true := by
    have hb : bytes "\r\n" = [13, 10] := by decide
    simp [endsHeaders, hb, List.isPrefixOf]
  have hbody : bodyStream (bytes "\r\n" ++ (B ++ extra)) = B ++ extra := by
    have hb : bytes "\r\n" = [13, 10] := by decide
    simp [bodyStream, hb, List.isPrefixOf]
  have hlook : (lines.foldl addHeader []).lookup (bytes "Content-Length") = some cl := by
    rw [foldl_addHeader_lookup, hcl]; rfl
  have hpost : handleConnection maxAlloc fs post directory =
      handlePostRequestBody maxAlloc fs (B ++ extra) directory F
        (lines.foldl addHeader []) := by
    rw [handleConnection_of_fields maxAlloc fs post directory _ _ v1 more1 hline1 hparts1,
      dispatch_post_files, hrest1, readHeaders_lines lines _ hl he, hbody]
  rw [hpost, handlePostRequestBody_framed maxAlloc fs directory F cl B extra _ hlook hlen]
    at hcreated ⊢
  have hget : ∀ fs1 : FS, handleConnection maxAlloc fs1 get directory =
      handleFileRequestBody fs1 directory F := fun fs1 => by
    rw [handleConnection_of_fields maxAlloc fs1 get directory _ _ v2 more2 hline2 hparts2,
      dispatch_other_files _ _ _ _ _ _ _ (by decide)]
  rw [hget]
  by_cases h : maxAlloc < B.length
  · rw [if_pos h] at hcreated
    have hne : ([] : Bytes) ≠ bytes "HTTP/1.1 201 Created\r\n\r\n" := by decide
    exact absurd hcreated hne
  · rw [if_neg h] at hcreated ⊢
    by_cases hw : fs.writable (Join directory F) = true
    · rw [if_pos hw]
      simp [handleFileRequestBody, ReadFile]
    · rw [if_neg hw] at hcreated
      have hne : bytes "HTTP/1.1 500 Internal Server Error\r\n\r\n" ≠
          bytes "HTTP/1.1 201 Created\r\n\r\n" := by decide
      exact absurd hcreated hne

/-- Scenario C of the specification: `POST /files/foo.txt` with body `abcd`,
then `GET /files/foo.txt`. -/
theorem post_then_get_roundtrip_witness :
    (handleConnection 4096
        (handleConnection 4096 emptyFS
          (bytes "POST /files/foo.txt HTTP/1.1\r\nContent-Length: 4\r\n\r\nabcd")
          (bytes "/tmp/data")).fs
        (bytes "GET /files/foo.txt HTTP/1.1\r\n\r\n") (bytes "/tmp/data")).written =
      bytes "HTTP/1.1 200 OK\r\nContent-Type: application/octet-stream\r\nContent-Length: 4\r\n\r\nabcd" :=
  (post_then_get_roundtrip 4096 emptyFS
    (bytes "POST /files/foo.txt HTTP/1.1\r\nContent-Length: 4\r\n\r\nabcd")
    (bytes "GET /files/foo.txt HTTP/1.1\r\n\r\n") (bytes "/tmp/data")
    (bytes "foo.txt") (bytes "abcd") (bytes "4") [] (bytes "HTTP/1.1") (bytes "HTTP/1.1")
    [] [] [bytes "Content-Length: 4\r\n"]
    (by decide) (by decide) (by decide) (by decide) (by decide) (by decide) (by decide)
    (by decide) (by decide)).trans (by decide)

/-- C5: a POST request whose path starts with `/files/` and whose header map
has no `Content-Length` entry is answered exactly
`HTTP/1.1 411 Length Required` and an empty line; the file system is left as
it was and no file-system call is made, whatever follows the headers. -/
theorem post_without_length_411 (maxAlloc : Nat) (fs : FS) (input directory : Bytes)
    (f v : Bytes) (more : List Bytes)
    (hline : (ReadString 10 input).err = false)
    (hparts : Fields (ReadString 10 input).line =
      bytes "POST" :: (bytes "/files/" ++ f) :: v :: more)
    (hnone : (readHeaders (ReadString 10 input).rest).1.lookup (bytes "Content-Length")
      = none) :
    handleConnection maxAlloc fs input directory =
      ⟨some .handlePostRequest, bytes "HTTP/1.1 411 Length Required\r\n\r\n", fs, [],
        false⟩ := by
  rw [handleConnection_of_fields maxAlloc fs input directory _ _ v more hline hparts,
    dispatch_post_files]
  simp only [handlePostRequestBody, hnone]

/-- Scenario F of the specification: `POST /files/x` without `Content-Length`. -/
theorem post_without_length_411_witness :
    (handleConnection 4096 emptyFS
        (bytes "POST /files/x HTTP/1.1\r\nHost: localhost\r\n\r\nabcd") (bytes ".")).written =
      bytes "HTTP/1.1 411 Length Required\r\n\r\n" :=
  congrArg Outcome.written
    (post_without_length_411 4096 emptyFS
      (bytes "POST /files/x HTTP/1.1\r\nHost: localhost\r\n\r\nabcd") (bytes ".")
      (bytes "x") (bytes "HTTP/1.1") [] (by decide) (by decide) (by decide))

/-- C6 (the code at the failing input): on `Content-Length: -1` the upload
handler writes no `400 Bad Request`; it writes nothing at all and ends in the
runtime panic of `make([]byte, -1)`. -/
theorem post_negative_length_no_response :
    (handleConnection 4096 emptyFS
        (bytes "POST /files/x HTTP/1.1\r\nContent-Length: -1\r\n\r\n") (bytes ".")).written = []
      ∧ (handleConnection 4096 emptyFS
        (bytes "POST /files/x HTTP/1.1\r\nContent-Length: -1\r\n\r\n") (bytes ".")).panicked
        = true := by
  decide

/-- C7 (the code at the failing input): `strconv.Atoi` accepts `-1`, so
`make([]byte, contentLength)` is reached with a negative length and
`handleConnection` ends in a runtime panic. -/
theorem handleConnection_panics_on_negative_length :
    Atoi (bytes "-1") = some (-1) ∧ makeBytes 4096 (-1) = none ∧
      (handleConnection 4096 emptyFS
        (bytes "POST /files/upload.bin HTTP/1.1\r\nContent-Length: -1\r\n\r\nabc")
        (bytes "/tmp")).panicked = true := by
  decide

/-- C9: when the stream ends before the first line feed, or the first line
splits on white space into fewer than three fields, `handleConnection` calls
no handler, writes nothing to the connection, makes no file-system call and
leaves the file system as it was. -/
theorem handleConnection_malformed_request_line (maxAlloc : Nat) (fs : FS)
    (input directory : Bytes)
    (h : (ReadString 10 input).err = true ∨
      (Fields (ReadString 10 input).line).length < 3) :
    handleConnection maxAlloc fs input directory = ⟨none, [], fs, [], false⟩ := by
  unfold handleConnection
  by_cases he : (ReadString 10 input).err = true
  · simp [he]
  · have hl : (Fields (ReadString 10 input).line).length < 3 := h.resolve_left he
    simp [he, hl]

/-- A request line of two fields: nothing is written. -/
theorem handleConnection_malformed_request_line_witness :
    handleConnection 4096 emptyFS (bytes "GET /files/foo.txt\r\nHost: x\r\n\r\n")
        (bytes ".") = ⟨none, [], emptyFS, [], false⟩ :=
  handleConnection_malformed_request_line 4096 emptyFS
    (bytes "GET /files/foo.txt\r\nHost: x\r\n\r\n") (bytes ".") (Or.inr (by decide))

/-- C8 (the code at the failing input): with the serving directory
`/srv/www`, the request `GET /files/../secret.txt` makes the program read
`/srv/secret.txt`, and `POST /files/../escaped.txt` makes it write
`/srv/escaped.txt`; neither path lies inside the serving directory. -/
theorem files_path_escapes_directory :
    (handleConnection 4096 emptyFS (bytes "GET /files/../secret.txt HTTP/1.1\r\n\r\n")
        (bytes "/srv/www")).calls = [.read (bytes "/srv/secret.txt")]
      ∧ ¬ insideDir (bytes "/srv/www") (bytes "/srv/secret.txt")
      ∧ (handleConnection 4096 emptyFS
          (bytes "POST /files/../escaped.txt HTTP/1.1\r\nContent-Length: 2\r\n\r\nhi")
          (bytes "/srv/www")).calls = [.write (bytes "/srv/escaped.txt") (bytes "hi")]
      ∧ ¬ insideDir (bytes "/srv/www") (bytes "/srv/escaped.txt") := by
  have hs : cleanStack ((bytes "/srv/www").head? == some 47) (bytes "/srv/www") =
      [[119, 119, 119], [115, 114, 118]] := by decide
  have hr : ((bytes "/srv/www").head? == some 47) = true := by decide
  refine ⟨by decide, ?_, by decide, ?_⟩
  · rintro ⟨below, -, h⟩
    have hp : bytes "/srv/secret.txt" =
        [47, 115, 114, 118, 47, 115, 101, 99, 114, 101, 116, 46, 116, 120, 116] := by decide
    rw [hs, hr, hp] at h
    simp only [renderPath, if_true, List.reverse_append, List.reverse_cons, List.reverse_nil,
      List.nil_append, List.cons_append] at h
    generalize below.reverse = xs at h
    cases xs with
    | nil => simp [List.intercalate, List.intersperse] at h
    | cons x xs => simp [List.intercalate, List.intersperse] at h
  · rintro ⟨below, -, h⟩
    have hp : bytes "/srv/escaped.txt" =
        [47, 115, 114, 118, 47, 101, 115, 99, 97, 112, 101, 100, 46, 116, 120, 116] := by
      decide
    rw [hs, hr, hp] at h
    simp only [renderPath, if_true, List.reverse_append, List.reverse_cons, List.reverse_nil,
      List.nil_append, List.cons_append] at h
    generalize below.reverse = xs at h
    cases xs with
    | nil => simp [List.intercalate, List.intersperse] at h
    | cons x xs => simp [List.intercalate, List.intersperse] at h

/-- Every file-system call of a request on `/files/` followed by `f` is made
on `filepath.Join(directory, f)`, whatever the method, the file name and the
serving directory. -/
theorem files_calls_at_join (maxAlloc : Nat) (fs : FS) (input directory : Bytes)
    (m f v : Bytes) (more : List Bytes)
    (hline : (ReadString 10 input).err = false)
    (hparts : Fields (ReadString 10 input).line = m :: (bytes "/files/" ++ f) :: v :: more) :
    ∀ c ∈ (handleConnection maxAlloc fs input directory).calls,
      c.name = Join directory f := by
  rw [handleConnection_of_fields maxAlloc fs input directory m _ v more hline hparts]
  by_cases hm : m = bytes "POST"
  · subst hm
    rw [dispatch_post_files]
    exact handlePostRequestBody_calls _ _ _ _ _ _
  · rw [dispatch_other_files _ _ _ _ _ _ _ hm]
    exact handleFileRequestBody_calls _ _ _

/-- C10 (counterexample): the stream `GET / HTTP/1.1`, `Host: localhost` ends
before the empty line that terminates the headers, and `handleConnection`
still writes a response, `200 OK`. -/
theorem truncated_headers_are_answered :
    (handleConnection 4096 emptyFS (bytes "GET / HTTP/1.1\r\nHost: localhost\r\n")
        (bytes ".")).written = bytes "HTTP/1.1 200 OK\r\n\r\n"
      ∧ (handleConnection 4096 emptyFS (bytes "GET / HTTP/1.1\r\nHost: localhost\r\n")
        (bytes ".")).written ≠ [] := by
  decide

/-- C10 (amended): when the request line is well formed and the stream ends
before the empty line that terminates the headers (after the complete header
lines `lines` comes a last piece without a line feed), the end of the stream
ends the header loop as the empty line does: the handler chosen by method and
path is called, and the run is exactly the run on the same request line and
header lines followed by the empty line and no body. -/
theorem handleConnection_truncated_headers (maxAlloc : Nat) (fs : FS)
    (input directory : Bytes) (m p v : Bytes) (more lines : List Bytes) (last : Bytes)
    (hline : (ReadString 10 input).err = false)
    (hparts : Fields (ReadString 10 input).line = m :: p :: v :: more)
    (hrest : (ReadString 10 input).rest = lines.flatten ++ last)
    (hl : ∀ l ∈ lines, isHeaderLine l = true)
    (hlast : 10 ∉ last) :
    (handleConnection maxAlloc fs input directory).handler = some (specRoute m p).handler
      ∧ handleConnection maxAlloc fs input directory =
        handleConnection maxAlloc fs
          ((ReadString 10 input).line ++ (lines.flatten ++ bytes "\r\n")) directory := by
  have hr := ReadString_line_append 10 input hline (lines.flatten ++ bytes "\r\n")
  have he1 : endsHeaders last = true := by simp [endsHeaders, hlast]
  have hb1 : bodyStream last = [] := by
    have hnp : (bytes "\r\n").isPrefixOf last = false := by
      cases hp : (bytes "\r\n").isPrefixOf last
      · rfl
      · have hb : bytes "\r\n" = [13, 10] := by decide
        rw [hb] at hp
        obtain ⟨t, rfl⟩ := List.isPrefixOf_iff_prefix.mp hp
        exact absurd (by simp) hlast
    simp [bodyStream, hnp]
  have he2 : endsHeaders (bytes "\r\n") = true := by decide
  have hb2 : bodyStream (bytes "\r\n") = [] := by decide
  have h1 := handleConnection_of_fields maxAlloc fs input directory m p v more hline hparts
  have h2 := handleConnection_of_fields maxAlloc fs
    ((ReadString 10 input).line ++ (lines.flatten ++ bytes "\r\n")) directory m p v more
    (by rw [hr]) (by rw [hr]; exact hparts)
  rw [hr] at h2
  rw [hrest, readHeaders_lines lines last hl he1, hb1] at h1
  rw [readHeaders_lines lines _ hl he2, hb2] at h2
  refine ⟨?_, h1.trans h2.symm⟩
  rw [h1, dispatch_eq_runRoute, runRoute_handler]

/-- A `/user-agent` request cut in the middle of its second header line still
reaches its handler. -/
theorem handleConnection_truncated_headers_witness :
    (handleConnection 4096 emptyFS
        (bytes "GET /user-agent HTTP/1.1\r\nUser-Agent: curl\r\nAccept: text") (bytes ".")).handler
      = some .handleUserAgent :=
  (handleConnection_truncated_headers 4096 emptyFS
    (bytes "GET /user-agent HTTP/1.1\r\nUser-Agent: curl\r\nAccept: text") (bytes ".")
    (bytes "GET") (bytes "/user-agent") (bytes "HTTP/1.1") []
    [bytes "User-Agent: curl\r\n"] (bytes "Accept: text")
    (by decide) (by decide) (by decide) (by decide) (by decide)).1

/-- C11: a request with a method other than POST and the path `/files/`
followed by `F` reads `filepath.Join(directory, F)`. When the read succeeds
with the bytes `C`, the response is exactly `200 OK` with
`Content-Type: application/octet-stream`, `Content-Length:` the decimal length
of `C`, and `C` as body; when the read fails, for whatever reason, the
response is exactly `404 Not Found` and an empty line. -/
theorem handleConnection_file_get (maxAlloc : Nat) (fs : FS) (input directory : Bytes)
    (m F v : Bytes) (more : List Bytes)
    (hline : (ReadString 10 input).err = false)
    (hparts : Fields (ReadString 10 input).line = m :: (bytes "/files/" ++ F) :: v :: more)
    (hm : m ≠ bytes "POST") :
    handleConnection maxAlloc fs input directory =
      ⟨some .handleFileRequest,
        match ReadFile fs (Join directory F) with
        | some C =>
          bytes "HTTP/1.1 200 OK\r\nContent-Type: application/octet-stream\r\nContent-Length: "
            ++ decimal C.length ++ bytes "\r\n\r\n" ++ C
        | none => bytes "HTTP/1.1 404 Not Found\r\n\r\n",
        fs, [.read (Join directory F)], false⟩ := by
  rw [handleConnection_of_fields maxAlloc fs input directory m _ v more hline hparts,
    dispatch_other_files _ _ _ _ _ _ _ hm]
  simp only [handleFileRequestBody]
  cases ReadFile fs (Join directory F) <;> rfl

/-- Scenario D of the specification, `GET /files/missing.txt` with the file
absent, next to a file that is present. -/
theorem handleConnection_file_get_witness :
    (handleConnection 4096 (fileFS (bytes "/tmp/data/foo.txt") (bytes "abcd"))
        (bytes "GET /files/missing.txt HTTP/1.1\r\n\r\n") (bytes "/tmp/data")).written =
      bytes "HTTP/1.1 404 Not Found\r\n\r\n"
    ∧ (handleConnection 4096 (fileFS (bytes "/tmp/data/foo.txt") (bytes "abcd"))
        (bytes "HEAD /files/foo.txt HTTP/1.1\r\n\r\n") (bytes "/tmp/data")).written =
      bytes "HTTP/1.1 200 OK\r\nContent-Type: application/octet-stream\r\nContent-Length: 4\r\n\r\nabcd" :=
  ⟨(congrArg Outcome.written
      (handleConnection_file_get 4096 (fileFS (bytes "/tmp/data/foo.txt") (bytes "abcd"))
        (bytes "GET /files/missing.txt HTTP/1.1\r\n\r\n") (bytes "/tmp/data")
        (bytes "GET") (bytes "missing.txt") (bytes "HTTP/1.1") []
        (by decide) (by decide) (by decide))).trans (by decide),
    (congrArg Outcome.written
      (handleConnection_file_get 4096 (fileFS (bytes "/tmp/data/foo.txt") (bytes "abcd"))
        (bytes "HEAD /files/foo.txt HTTP/1.1\r\n\r\n") (bytes "/tmp/data")
        (bytes "HEAD") (bytes "foo.txt") (bytes "HTTP/1.1") []
        (by decide) (by decide) (by decide))).trans (by decide)⟩

/-- C12: a POST request to `/files/` followed by `F` whose header lines give
`Content-Length` the value `0`, with a target the file system accepts a write
to, writes the empty file at `filepath.Join(directory, F)` and is answered
exactly `201 Created` and an empty line, whatever follows the headers, also
nothing at all. -/
theorem post_zero_length_created (maxAlloc : Nat) (fs : FS) (input directory : Bytes)
    (F v : Bytes) (more lines : List Bytes) (ending : Bytes)
    (hline : (ReadString 10 input).err = false)
    (hparts : Fields (ReadString 10 input).line =
      bytes "POST" :: (bytes "/files/" ++ F) :: v :: more)
    (hrest : (ReadString 10 input).rest = lines.flatten ++ ending)
    (hl : ∀ l ∈ lines, isHeaderLine l = true) (he : endsHeaders ending = true)
    (hcl : headerValue (bytes "Content-Length") lines = some (bytes "0"))
    (hw : fs.writable (Join directory F) = true) :
    handleConnection maxAlloc fs input directory =
      ⟨some .handlePostRequest, bytes "HTTP/1.1 201 Created\r\n\r\n",
        { fs with content := fun p =>
            if p = Join directory F then some [] else fs.content p },
        [.write (Join directory F) []], false⟩ := by
  have hlook : (lines.foldl addHeader []).lookup (bytes "Content-Length") =
      some (bytes "0") := by
    rw [foldl_addHeader_lookup, hcl]; rfl
  have hlen : Atoi (bytes "0") = some ((([] : Bytes).length : Nat) : Int) := by decide
  rw [handleConnection_of_fields maxAlloc fs input directory _ _ v more hline hparts,
    dispatch_post_files, hrest, readHeaders_lines lines ending hl he]
  have h := handlePostRequestBody_framed maxAlloc fs directory F (bytes "0") []
    (bodyStream ending) _ hlook hlen
  rw [List.nil_append] at h
  rw [h]
  simp [hw]

/-- An upload of length `0` with nothing after the headers. -/
theorem post_zero_length_created_witness :
    (handleConnection 4096 emptyFS
        (bytes "POST /files/empty.txt HTTP/1.1\r\nContent-Length: 0\r\n\r\n")
        (bytes "/tmp/data")).written = bytes "HTTP/1.1 201 Created\r\n\r\n"
    ∧ (handleConnection 4096 emptyFS
        (bytes "POST /files/empty.txt HTTP/1.1\r\nContent-Length: 0\r\n\r\n")
        (bytes "/tmp/data")).fs.content (bytes "/tmp/data/empty.txt") = some [] :=
  have h := post_zero_length_created 4096 emptyFS
    (bytes "POST /files/empty.txt HTTP/1.1\r\nContent-Length: 0\r\n\r\n")
    (bytes "/tmp/data") (bytes "empty.txt") (bytes "HTTP/1.1") []
    [bytes "Content-Length: 0\r\n"] (bytes "\r\n")
    (by decide) (by decide) (by decide) (by decide) (by decide) (by decide) (by decide)
  ⟨congrArg Outcome.written h, by rw [h]; decide⟩

/-- C13: a request with a well-formed request line whose path is neither
`/user-agent` nor `/` and starts with neither `/files/` nor `/echo/` is
answered exactly `404 Not Found` and an empty line, for every method, POST
included, and every set of headers; the file system is not touched. -/
theorem handleConnection_not_found (maxAlloc : Nat) (fs : FS) (input directory : Bytes)
    (m p v : Bytes) (more : List Bytes)
    (hline : (ReadString 10 input).err = false)
    (hparts : Fields (ReadString 10 input).line = m :: p :: v :: more)
    (hua : p ≠ bytes "/user-agent") (hroot : p ≠ bytes "/")
    (hfiles : HasPrefix p (bytes "/files/") = false)
    (hecho : HasPrefix p (bytes "/echo/") = false) :
    handleConnection maxAlloc fs input directory =
      ⟨some .handleNotFound, bytes "HTTP/1.1 404 Not Found\r\n\r\n", fs, [], false⟩ := by
  rw [handleConnection_of_fields maxAlloc fs input directory m p v more hline hparts,
    dispatch_notFound _ _ _ _ _ _ _ hua hroot hfiles hecho]
  rfl

/-- A POST on `/files`, the prefix without its last `/`, is not an upload. -/
theorem handleConnection_not_found_witness :
    handleConnection 4096 emptyFS
        (bytes "POST /files HTTP/1.1\r\nContent-Length: 2\r\n\r\nhi") (bytes ".") =
      ⟨some .handleNotFound, bytes "HTTP/1.1 404 Not Found\r\n\r\n", emptyFS, [], false⟩ :=
  handleConnection_not_found 4096 emptyFS
    (bytes "POST /files HTTP/1.1\r\nContent-Length: 2\r\n\r\nhi") (bytes ".")
    (bytes "POST") (bytes "/files") (bytes "HTTP/1.1") []
    (by decide) (by decide) (by decide) (by decide) (by decide) (by decide)

/-- C14: idempotence of upload. When a `POST /files/F` request whose header
lines give `Content-Length` the length of the body `B` is answered
`201 Created`, handling the same request once more on the file system the
first run left is answered `201 Created` again and leaves that file system
exactly as it is. -/
theorem post_twice_same_as_once (maxAlloc : Nat) (fs : FS)
    (post directory F B cl extra v : Bytes) (more lines : List Bytes)
    (hline : (ReadString 10 post).err = false)
    (hparts : Fields (ReadString 10 post).line =
      bytes "POST" :: (bytes "/files/" ++ F) :: v :: more)
    (hrest : (ReadString 10 post).rest = lines.flatten ++ (bytes "\r\n" ++ (B ++ extra)))
    (hl : ∀ l ∈ lines, isHeaderLine l = true)
    (hcl : headerValue (bytes "Content-Length") lines = some cl)
    (hlen : Atoi cl = some (B.length : Int))
    (hcreated : (handleConnection maxAlloc fs post directory).written =
      bytes "HTTP/1.1 201 Created\r\n\r\n") :
    (handleConnection maxAlloc (handleConnection maxAlloc fs post directory).fs post
        directory).written = bytes "HTTP/1.1 201 Created\r\n\r\n"
      ∧ (handleConnection maxAlloc (handleConnection maxAlloc fs post directory).fs post
        directory).fs = (handleConnection maxAlloc fs post directory).fs := by
  have hrun := fun fs0 : FS => handleConnection_post_framed maxAlloc fs0 post directory F B
    cl extra v more lines hline hparts hrest hl hcl hlen
  rw [hrun fs] at hcreated
  rw [hrun (handleConnection maxAlloc fs post directory).fs, hrun fs]
  by_cases h : maxAlloc < B.length
  · rw [if_pos h] at hcreated
    exact absurd hcreated bytes_created_ne_nil
  · rw [if_neg h] at hcreated
    by_cases hw : fs.writable (Join directory F) = true
    · simp only [h, hw, if_true, if_false, true_and]
      congr 1
      funext q
      by_cases hq : q = Join directory F <;> simp [hq]
    · rw [if_neg hw] at hcreated
      exact absurd hcreated bytes_error_ne_created

/-- Scenario C of the specification uploaded twice. -/
theorem post_twice_same_as_once_witness :
    (handleConnection 4096
        (handleConnection 4096 emptyFS
          (bytes "POST /files/foo.txt HTTP/1.1\r\nContent-Length: 4\r\n\r\nabcd")
          (bytes "/tmp/data")).fs
        (bytes "POST /files/foo.txt HTTP/1.1\r\nContent-Length: 4\r\n\r\nabcd")
        (bytes "/tmp/data")).written = bytes "HTTP/1.1 201 Created\r\n\r\n" :=
  (post_twice_same_as_once 4096 emptyFS
    (bytes "POST /files/foo.txt HTTP/1.1\r\nContent-Length: 4\r\n\r\nabcd")
    (bytes "/tmp/data") (bytes "foo.txt") (bytes "abcd") (bytes "4") [] (bytes "HTTP/1.1")
    [] [bytes "Content-Length: 4\r\n"]
    (by decide) (by decide) (by decide) (by decide) (by decide) (by decide)
    (by decide)).1

/-- C15: on a stream of header lines followed by the empty line (or cut
short), the header loop reads every line; the map it builds gives each name
the value of the last line bearing it, where a line bears the name written
before its first `:` and gives the text after that first `:`, both with the
white space around them removed; a line without `:` adds nothing and does not
stop the loop, which leaves the reader at the body. -/
theorem readHeaders_last_line_wins (lines : List Bytes) (ending name : Bytes)
    (hl : ∀ l ∈ lines, isHeaderLine l = true) (he : endsHeaders ending = true) :
    (readHeaders (lines.flatten ++ ending)).1.lookup name = headerValue name lines
      ∧ (readHeaders (lines.flatten ++ ending)).2 = bodyStream ending := by
  rw [readHeaders_lines lines ending hl he]
  refine ⟨?_, rfl⟩
  rw [foldl_addHeader_lookup]
  cases headerValue name lines <;> rfl

/-- A `Host` value that holds a `:` is kept whole, a line without `:` is
passed over, and of two `Accept` lines the last one counts. -/
theorem readHeaders_last_line_wins_witness :
    (readHeaders (bytes "Host: localhost:4221\r\nno colon here\r\nAccept: a\r\nAccept : b \r\n\r\nbody")).1.lookup
        (bytes "Host") = some (bytes "localhost:4221")
    ∧ (readHeaders (bytes "Host: localhost:4221\r\nno colon here\r\nAccept: a\r\nAccept : b \r\n\r\nbody")).1.lookup
        (bytes "Accept") = some (bytes "b") :=
  ⟨((readHeaders_last_line_wins
      [bytes "Host: localhost:4221\r\n", bytes "no colon here\r\n", bytes "Accept: a\r\n",
        bytes "Accept : b \r\n"] (bytes "\r\nbody") (bytes "Host")
      (by decide) (by decide)).1).trans (by decide),
    ((readHeaders_last_line_wins
      [bytes "Host: localhost:4221\r\n", bytes "no colon here\r\n", bytes "Accept: a\r\n",
        bytes "Accept : b \r\n"] (bytes "\r\nbody") (bytes "Accept")
      (by decide) (by decide)).1).trans (by decide)⟩

/-- C16: when a POST on `/files/` followed by `F`, whose header lines give
`Content-Length` a value that `strconv.Atoi` reads as `N`, is answered
`201 Created`, then `N` is not negative, at least `N` bytes followed the
headers, and what is written to `filepath.Join(directory, F)`, in one call,
is exactly the first `N` of them: the file holds `N` bytes and none of the
bytes sent after them. -/
theorem post_writes_declared_length (maxAlloc : Nat) (fs : FS) (input directory : Bytes)
    (F v cl : Bytes) (N : Int) (more lines : List Bytes) (ending : Bytes)
    (hline : (ReadString 10 input).err = false)
    (hparts : Fields (ReadString 10 input).line =
      bytes "POST" :: (bytes "/files/" ++ F) :: v :: more)
    (hrest : (ReadString 10 input).rest = lines.flatten ++ ending)
    (hl : ∀ l ∈ lines, isHeaderLine l = true) (he : endsHeaders ending = true)
    (hcl : headerValue (bytes "Content-Length") lines = some cl)
    (hN : Atoi cl = some N)
    (hcreated : (handleConnection maxAlloc fs input directory).written =
      bytes "HTTP/1.1 201 Created\r\n\r\n") :
    0 ≤ N ∧ N.toNat ≤ (bodyStream ending).length
      ∧ (handleConnection maxAlloc fs input directory).calls =
          [.write (Join directory F) ((bodyStream ending).take N.toNat)]
      ∧ (handleConnection maxAlloc fs input directory).fs.content (Join directory F) =
          some ((bodyStream ending).take N.toNat)
      ∧ ((bodyStream ending).take N.toNat).length = N.toNat := by
  have hlook : (lines.foldl addHeader []).lookup (bytes "Content-Length") = some cl := by
    rw [foldl_addHeader_lookup, hcl]; rfl
  rw [handleConnection_of_fields maxAlloc fs input directory _ _ v more hline hparts,
    dispatch_post_files, hrest, readHeaders_lines lines ending hl he] at hcreated ⊢
  obtain ⟨h0, hr, -, hout⟩ := handlePostRequestBody_created maxAlloc fs (bodyStream ending)
    directory F cl N _ hlook hN hcreated
  rw [hout]
  exact ⟨h0, hr, rfl, by simp, by simp [hr]⟩

/-- An upload of declared length 4 followed by 7 bytes: the file holds the
first 4. -/
theorem post_writes_declared_length_witness :
    (handleConnection 4096 emptyFS
        (bytes "POST /files/foo.txt HTTP/1.1\r\nContent-Length: 4\r\n\r\nabcdefg")
        (bytes "/tmp/data")).fs.content (bytes "/tmp/data/foo.txt") = some (bytes "abcd") :=
  ((post_writes_declared_length 4096 emptyFS
    (bytes "POST /files/foo.txt HTTP/1.1\r\nContent-Length: 4\r\n\r\nabcdefg")
    (bytes "/tmp/data") (bytes "foo.txt") (bytes "HTTP/1.1") (bytes "4") 4 []
    [bytes "Content-Length: 4\r\n"] (bytes "\r\nabcdefg")
    (by decide) (by decide) (by decide) (by decide) (by decide) (by decide) (by decide)
    (by decide)).2.2.2.1).trans (by decide)

/-- C17 (the code at the failing input): an upload that declares
`Content-Length: 9223372036854775807`, a value `strconv.Atoi` accepts, and
sends three bytes is not answered `400 Bad Request`: the buffer of the
declared length is allocated before the body is read, `make` panics, and
nothing is written to the connection. The runtime's largest allocation is
`2 ^ 48` bytes here. -/
theorem post_oversized_length_panics :
    Atoi (bytes "9223372036854775807") = some 9223372036854775807
      ∧ (handleConnection (2 ^ 48) emptyFS
          (bytes "POST /files/x HTTP/1.1\r\nContent-Length: 9223372036854775807\r\n\r\nabc")
          (bytes ".")).written = []
      ∧ (handleConnection (2 ^ 48) emptyFS
          (bytes "POST /files/x HTTP/1.1\r\nContent-Length: 9223372036854775807\r\n\r\nabc")
          (bytes ".")).panicked = true := by
  decide

/-- C18: header names are matched byte for byte. A request to `/user-agent`
none of whose header lines is named exactly `User-Agent` (a line named
`user-agent` is not) is answered with an empty body and `Content-Length: 0`;
a POST on `/files/` none of whose header lines is named exactly
`Content-Length` (a line named `content-length` is not) is answered
`411 Length Required` and writes nothing. -/
theorem header_names_case_sensitive (maxAlloc : Nat) (fs : FS)
    (get post directory m F v1 v2 : Bytes) (more1 more2 lines1 lines2 : List Bytes)
    (ending1 ending2 : Bytes)
    (hline1 : (ReadString 10 get).err = false)
    (hparts1 : Fields (ReadString 10 get).line = m :: bytes "/user-agent" :: v1 :: more1)
    (hrest1 : (ReadString 10 get).rest = lines1.flatten ++ ending1)
    (hl1 : ∀ l ∈ lines1, isHeaderLine l = true) (he1 : endsHeaders ending1 = true)
    (hua : ∀ l ∈ lines1, lineNames (bytes "User-Agent") l = false)
    (hline2 : (ReadString 10 post).err = false)
    (hparts2 : Fields (ReadString 10 post).line =
      bytes "POST" :: (bytes "/files/" ++ F) :: v2 :: more2)
    (hrest2 : (ReadString 10 post).rest = lines2.flatten ++ ending2)
    (hl2 : ∀ l ∈ lines2, isHeaderLine l = true) (he2 : endsHeaders ending2 = true)
    (hcl : ∀ l ∈ lines2, lineNames (bytes "Content-Length") l = false) :
    handleConnection maxAlloc fs get directory =
        ⟨some .handleUserAgent,
          bytes "HTTP/1.1 200 OK\r\nContent-Type: text/plain\r\nContent-Length: 0\r\n\r\n",
          fs, [], false⟩
      ∧ handleConnection maxAlloc fs post directory =
        ⟨some .handlePostRequest, bytes "HTTP/1.1 411 Length Required\r\n\r\n", fs, [],
          false⟩ := by
  constructor
  · rw [handleConnection_of_fields maxAlloc fs get directory m _ v1 more1 hline1 hparts1,
      dispatch_userAgent, hrest1, readHeaders_lines lines1 ending1 hl1 he1]
    have hnone : (lines1.foldl addHeader []).lookup (bytes "User-Agent") = none := by
      rw [foldl_addHeader_lookup, headerValue_none _ _ hua]; rfl
    have hresp : bytes "HTTP/1.1 200 OK\r\nContent-Type: text/plain\r\nContent-Length: "
        ++ decimal ([] : Bytes).length ++ bytes "\r\n\r\n" ++ [] =
        bytes "HTTP/1.1 200 OK\r\nContent-Type: text/plain\r\nContent-Length: 0\r\n\r\n" := by
      decide
    simp only [handleUserAgent, hnone, Option.getD_none, hresp]
  · rw [handleConnection_of_fields maxAlloc fs post directory _ _ v2 more2 hline2 hparts2,
      dispatch_post_files, hrest2, readHeaders_lines lines2 ending2 hl2 he2]
    have hnone : (lines2.foldl addHeader []).lookup (bytes "Content-Length") = none := by
      rw [foldl_addHeader_lookup, headerValue_none _ _ hcl]; rfl
    simp only [handlePostRequestBody, hnone]

/-- The headers `user-agent: x` and `content-length: 4` are not the headers
`User-Agent` and `Content-Length`. -/
theorem header_names_case_sensitive_witness :
    (handleConnection 4096 emptyFS
        (bytes "GET /user-agent HTTP/1.1\r\nuser-agent: x\r\n\r\n") (bytes ".")).written =
      bytes "HTTP/1.1 200 OK\r\nContent-Type: text/plain\r\nContent-Length: 0\r\n\r\n"
    ∧ (handleConnection 4096 emptyFS
        (bytes "POST /files/a.txt HTTP/1.1\r\ncontent-length: 4\r\n\r\nabcd")
        (bytes ".")).written = bytes "HTTP/1.1 411 Length Required\r\n\r\n" :=
  have h := header_names_case_sensitive 4096 emptyFS
    (bytes "GET /user-agent HTTP/1.1\r\nuser-agent: x\r\n\r\n")
    (bytes "POST /files/a.txt HTTP/1.1\r\ncontent-length: 4\r\n\r\nabcd") (bytes ".")
    (bytes "GET") (bytes "a.txt") (bytes "HTTP/1.1") (bytes "HTTP/1.1") [] []
    [bytes "user-agent: x\r\n"] [bytes "content-length: 4\r\n"]
    (bytes "\r\n") (bytes "\r\nabcd")
    (by decide) (by decide) (by decide) (by decide) (by decide) (by decide)
    (by decide) (by decide) (by decide) (by decide) (by decide) (by decide)
  ⟨congrArg Outcome.written h.1, congrArg Outcome.written h.2⟩

/-- C19: a request with a method other than POST for the path `/files/`, the
file name empty, reads `filepath.Join(directory, "")`, which is the serving
directory itself (its cleaned path; the empty string when the directory is
the empty string). When that path does not read as a file, the response is
exactly `404 Not Found` and an empty line. -/
theorem files_empty_name_not_found (maxAlloc : Nat) (fs : FS) (input directory : Bytes)
    (m v : Bytes) (more : List Bytes)
    (hline : (ReadString 10 input).err = false)
    (hparts : Fields (ReadString 10 input).line = m :: bytes "/files/" :: v :: more)
    (hm : m ≠ bytes "POST")
    (hnofile : ReadFile fs (Join directory []) = none) :
    Join directory [] = (if directory = [] then [] else Clean directory)
      ∧ handleConnection maxAlloc fs input directory =
        ⟨some .handleFileRequest, bytes "HTTP/1.1 404 Not Found\r\n\r\n", fs,
          [.read (Join directory [])], false⟩ := by
  constructor
  · by_cases hd : directory = []
    · subst hd; rfl
    · rw [if_neg hd, Join_empty_name directory hd]
  · have hparts2 : Fields (ReadString 10 input).line =
        m :: (bytes "/files/" ++ []) :: v :: more := by
      rw [List.append_nil]; exact hparts
    rw [handleConnection_of_fields maxAlloc fs input directory m _ v more hline hparts2,
      dispatch_other_files _ _ _ _ _ _ _ hm]
    simp only [handleFileRequestBody, hnofile]

/-- `GET /files/` with the serving directory `/tmp/data/`. -/
theorem files_empty_name_not_found_witness :
    Join (bytes "/tmp/data/") [] = bytes "/tmp/data"
    ∧ (handleConnection 4096 emptyFS (bytes "GET /files/ HTTP/1.1\r\n\r\n")
        (bytes "/tmp/data/")).written = bytes "HTTP/1.1 404 Not Found\r\n\r\n" :=
  have h := files_empty_name_not_found 4096 emptyFS (bytes "GET /files/ HTTP/1.1\r\n\r\n")
    (bytes "/tmp/data/") (bytes "GET") (bytes "HTTP/1.1") []
    (by decide) (by decide) (by decide) (by decide)
  ⟨h.1.trans (by decide), congrArg Outcome.written h.2⟩

/-- C20 (counterexample): on a file system where the write to `keep.txt`
opens the file and fails after two bytes, the upload is answered
`500 Internal Server Error`, not `201 Created`, and the file, which held
`old`, holds `ab` afterwards. -/
theorem failed_write_changes_file :
    (handleConnection 4096 (fullDiskFS (bytes "/tmp/data/keep.txt") (bytes "old") 2)
        (bytes "POST /files/keep.txt HTTP/1.1\r\nContent-Length: 4\r\n\r\nabcd")
        (bytes "/tmp/data")).written = bytes "HTTP/1.1 500 Internal Server Error\r\n\r\n"
      ∧ (fullDiskFS (bytes "/tmp/data/keep.txt") (bytes "old") 2).content
          (bytes "/tmp/data/keep.txt") = some (bytes "old")
      ∧ (handleConnection 4096 (fullDiskFS (bytes "/tmp/data/keep.txt") (bytes "old") 2)
        (bytes "POST /files/keep.txt HTTP/1.1\r\nContent-Length: 4\r\n\r\nabcd")
        (bytes "/tmp/data")).fs.content (bytes "/tmp/data/keep.txt") = some (bytes "ab") := by
  decide

/-- C20 (amended): frame property of the file system. After any run of
`handleConnection` the file system is the one before, unless the request line
is well formed with the method exactly `POST` and a path that starts with
`/files/`, and `os.WriteFile` was called, once, on
`filepath.Join(directory, path minus "/files/")`. Then the file system
differs from the one before at most in what that single path holds: the data
written when the answer is `201 Created`, a first part of it when the answer
is `500 Internal Server Error`. A run with any other answer leaves the whole
file system as it was. -/
theorem handleConnection_frame (maxAlloc : Nat) (fs : FS) (input directory : Bytes) :
    ((handleConnection maxAlloc fs input directory).fs = fs ∨
      ∃ (p v : Bytes) (more : List Bytes) (data kept : Bytes),
        (ReadString 10 input).err = false ∧
        Fields (ReadString 10 input).line = bytes "POST" :: p :: v :: more ∧
        HasPrefix p (bytes "/files/") = true ∧
        (handleConnection maxAlloc fs input directory).calls =
          [.write (Join directory (TrimPrefix p (bytes "/files/"))) data] ∧
        (((handleConnection maxAlloc fs input directory).written =
              bytes "HTTP/1.1 201 Created\r\n\r\n" ∧ kept = data) ∨
          ((handleConnection maxAlloc fs input directory).written =
              bytes "HTTP/1.1 500 Internal Server Error\r\n\r\n" ∧ kept <+: data)) ∧
        (handleConnection maxAlloc fs input directory).fs =
          { fs with content := fun q =>
              if q = Join directory (TrimPrefix p (bytes "/files/")) then some kept
              else fs.content q })
    ∧ ((handleConnection maxAlloc fs input directory).written ≠
          bytes "HTTP/1.1 201 Created\r\n\r\n" →
        (handleConnection maxAlloc fs input directory).written ≠
          bytes "HTTP/1.1 500 Internal Server Error\r\n\r\n" →
        (handleConnection maxAlloc fs input directory).fs = fs) := by
  have key : (handleConnection maxAlloc fs input directory).fs = fs ∨
      ∃ (p v : Bytes) (more : List Bytes) (data kept : Bytes),
        (ReadString 10 input).err = false ∧
        Fields (ReadString 10 input).line = bytes "POST" :: p :: v :: more ∧
        HasPrefix p (bytes "/files/") = true ∧
        (handleConnection maxAlloc fs input directory).calls =
          [.write (Join directory (TrimPrefix p (bytes "/files/"))) data] ∧
        (((handleConnection maxAlloc fs input directory).written =
              bytes "HTTP/1.1 201 Created\r\n\r\n" ∧ kept = data) ∨
          ((handleConnection maxAlloc fs input directory).written =
              bytes "HTTP/1.1 500 Internal Server Error\r\n\r\n" ∧ kept <+: data)) ∧
        (handleConnection maxAlloc fs input directory).fs =
          { fs with content := fun q =>
              if q = Join directory (TrimPrefix p (bytes "/files/")) then some kept
              else fs.content q } := by
    by_cases he : (ReadString 10 input).err = true
    · left; simp [handleConnection, he]
    · have he2 : (ReadString 10 input).err = false := by simpa using he
      match hp : Fields (ReadString 10 input).line with
      | [] => left; simp [handleConnection, he, hp]
      | [_] => left; simp [handleConnection, he, hp]
      | [_, _] => left; simp [handleConnection, he, hp]
      | m :: p :: v :: more =>
        rw [handleConnection_of_fields maxAlloc fs input directory m p v more he2 hp]
        rcases dispatch_frame maxAlloc fs (readHeaders (ReadString 10 input).rest).2
          directory m p (readHeaders (ReadString 10 input).rest).1 with
          h | ⟨h1, h2, data, kept, h3, h4, h5⟩
        · exact Or.inl h
        · subst h1
          exact Or.inr ⟨p, v, more, data, kept, he2, rfl, h2, h3, h4, h5⟩
  refine ⟨key, fun h201 h500 => ?_⟩
  rcases key with h | ⟨_, _, _, _, _, _, _, _, _, h4, _⟩
  · exact h
  · rcases h4 with ⟨h, _⟩ | ⟨h, _⟩
    · exact absurd h h201
    · exact absurd h h500

end HTTPfromScratch
